import Mathlib

/-!
Verification of the wip_backend contract-management service.

This file gives a shallow embedding, in Lean 4, of the parts of the
backend that its specification makes claims about:

* `ContractIntelligenceService` document scoring and ranking
  (`app/services/contract_intelligence_service.py`);
* the retry loop of `ComprehensiveClaudeAnalyzer._ask_claude`
  (`app/services/claude_contract_analyzer.py`);
* the key/value response parser of
  `SimplifiedContractAnalyzer._parse_response`
  (`app/services/simplified_contract_analyzer.py`);
* the relational schema of `wip_entries` and `contract_analysis`
  and the database-mutating REST endpoints
  (`app/api/contracts.py`, `app/api/wip_entry.py`, `app/api/wip.py`),
  modelled as a state machine over an explicit database value.

Python dictionaries carrying optional labels are modelled as structures of
`Option` fields; `dict.get(k, d)` becomes `Option.getD`; Python string
operations used by the code (`in`, `lower`, `strip`, `upper`, `split`,
`endswith`, slicing) are defined below on `List Char`.
-/

namespace WipBackend

/-! ## Python string primitives -/

/-- `chPre needle hay`: `needle` occurs at the start of `hay`. -/
def chPre : List Char → List Char → Bool
  | [], _ => true
  | _ :: _, [] => false
  | a :: as, b :: bs => a == b && chPre as bs

/-- `subChars needle hay`: `needle` occurs contiguously somewhere in `hay`
(Python's `needle in hay`; the empty needle always occurs). -/
def subChars (needle : List Char) : List Char → Bool
  | [] => chPre needle []
  | b :: bs => chPre needle (b :: bs) || subChars needle bs

/-- Python `needle in hay` on strings. -/
def strIn (needle hay : String) : Bool :=
  subChars needle.data hay.data

/-- Python `str.lower()` (ASCII, which is all the code compares). -/
def pyLower (s : String) : String :=
  ⟨s.data.map Char.toLower⟩

/-- Python `str.upper()` (ASCII). -/
def pyUpper (s : String) : String :=
  ⟨s.data.map Char.toUpper⟩

/-- Whitespace stripped by Python `str.strip()`. -/
def pyWs (c : Char) : Bool :=
  c == ' ' || c == '\t' || c == '\n' || c == '\r' || c == '\x0b' || c == '\x0c'

/-- Python `str.strip()`. -/
def pyStrip (s : String) : String :=
  ⟨((s.data.dropWhile pyWs).reverse.dropWhile pyWs).reverse⟩

/-- Python `s.endswith(suffix)`. -/
def pyEndsWith (s suffix : String) : Bool :=
  chPre suffix.data.reverse s.data.reverse

/-- Python `s[:n]` (character slicing, as used on already-decoded text). -/
def pyTake (s : String) (n : Nat) : String :=
  ⟨s.data.take n⟩

/-! ## Document classification records

A classification is the dictionary produced by
`ContractIntelligenceService._parse_classification_response` (or handed in by
a caller); `score_document_importance` reads the six keys below, each
possibly absent. -/

structure Classification where
  filename : Option String := none
  document_type : Option String := none
  importance : Option String := none
  status : Option String := none
  text_length : Option Int := none
  recommendation : Option String := none
deriving Repr, DecidableEq

/-! ## `ContractIntelligenceService.score_document_importance` -/

/-- Python `d.get(key, default)` for a dict given as key/value pairs. -/
def dictGetD : List (String × Int) → String → Int → Int
  | [], _, d => d
  | (k, v) :: rest, key, d => if key = k then v else dictGetD rest key d

/-- The `importance_scores` dict of `score_document_importance`. -/
def importance_scores : List (String × Int) :=
  [("CRITICAL", 100), ("HIGH", 70), ("MEDIUM", 40), ("LOW", 20)]

/-- The `type_scores` dict of `score_document_importance`. -/
def type_scores : List (String × Int) :=
  [("PRIMARY_CONTRACT", 50), ("CHANGE_ORDER", 30), ("AMENDMENT", 25),
   ("INSURANCE_DOCUMENT", 15), ("CORRESPONDENCE", 10)]

/-- `ContractIntelligenceService.score_document_importance`, line by line:
base importance from `importance_scores`, document-type weight from
`type_scores`, status bonus, filename-substring bonuses on the lowercased
filename, and the text-length bonus. -/
def score_document_importance (c : Classification) : Int :=
  let score : Int := 0
  -- score += importance_scores.get(classification.get("importance", "MEDIUM"), 40)
  let score := score + dictGetD importance_scores (c.importance.getD "MEDIUM") 40
  -- score += type_scores.get(classification.get("document_type", ""), 0)
  let score := score + dictGetD type_scores (c.document_type.getD "") 0
  -- status bonus
  let score :=
    if c.status = some "EXECUTED_SIGNED" then score + 30
    else if c.status = some "DRAFT_UNSIGNED" then score + 10
    else score
  -- enhanced filename analysis
  let filename := pyLower (c.filename.getD "")
  let score :=
    if strIn "executed" filename || strIn "signed" filename || strIn "final" filename then
      score + 25
    else score
  let score := if strIn "clean" filename then score + 20 else score
  let score :=
    if strIn "r1" filename || strIn "rev1" filename then score + 15
    else if strIn "r2" filename || strIn "rev2" filename then score + 18
    else if strIn "r3" filename || strIn "rev3" filename then score + 22
    else score
  let score :=
    if strIn "markup" filename || strIn "mark up" filename || strIn "draft" filename then
      score - 10
    else score
  -- file size bonus
  let text_length := c.text_length.getD 0
  let score :=
    if text_length > 100000 then score + 15
    else if text_length > 50000 then score + 10
    else if text_length > 20000 then score + 5
    else score
  score

/-! Spec-side components for claim C1, written from the specification's
wording rather than from the code: the score is asserted to be a linear
weighted sum of five independent label features. -/

/-- Importance base per the spec: CRITICAL 100, HIGH 70, MEDIUM 40, LOW 20,
any other or missing label 40. -/
def importanceBase (c : Classification) : Int :=
  match c.importance with
  | none => 40
  | some s =>
    if s = "CRITICAL" then 100
    else if s = "HIGH" then 70
    else if s = "MEDIUM" then 40
    else if s = "LOW" then 20
    else 40

/-- Document-type weight per the spec. -/
def typeWeight (c : Classification) : Int :=
  match c.document_type with
  | none => 0
  | some s =>
    if s = "PRIMARY_CONTRACT" then 50
    else if s = "CHANGE_ORDER" then 30
    else if s = "AMENDMENT" then 25
    else if s = "INSURANCE_DOCUMENT" then 15
    else if s = "CORRESPONDENCE" then 10
    else 0

/-- Status bonus per the spec: EXECUTED_SIGNED +30, DRAFT_UNSIGNED +10,
otherwise 0. -/
def statusBonus (c : Classification) : Int :=
  if c.status = some "EXECUTED_SIGNED" then 30
  else if c.status = some "DRAFT_UNSIGNED" then 10
  else 0

/-- Lowercased-filename substring bonuses per the spec, as a sum of four
independent contributions. -/
def filenameBonus (c : Classification) : Int :=
  let fn := pyLower (c.filename.getD "")
  (if strIn "executed" fn || strIn "signed" fn || strIn "final" fn then 25 else 0)
    + (if strIn "clean" fn then 20 else 0)
    + (if strIn "r1" fn || strIn "rev1" fn then 15
       else if strIn "r2" fn || strIn "rev2" fn then 18
       else if strIn "r3" fn || strIn "rev3" fn then 22
       else 0)
    - (if strIn "markup" fn || strIn "mark up" fn || strIn "draft" fn then 10 else 0)

/-- Text-length bonus per the spec. -/
def textLengthBonus (c : Classification) : Int :=
  let n := c.text_length.getD 0
  if n > 100000 then 15 else if n > 50000 then 10 else if n > 20000 then 5 else 0

/-! Helper identities used to decompose the sequential accumulation of
`score_document_importance` into a sum of independent contributions. -/

theorem ite_add_pull (p : Prop) [Decidable p] (s a b : Int) :
    (if p then s + a else s + b) = s + (if p then a else b) := by
  split_ifs <;> ring

theorem ite_add_pull1 (p : Prop) [Decidable p] (s a : Int) :
    (if p then s + a else s) = s + (if p then a else 0) := by
  split_ifs <;> ring

theorem ite_sub_pull1 (p : Prop) [Decidable p] (s a : Int) :
    (if p then s - a else s) = s - (if p then a else 0) := by
  split_ifs <;> ring

/-- **C1.** For every classification dictionary,
`ContractIntelligenceService.score_document_importance` returns exactly the
linear weighted sum of the five label features: the importance base
(CRITICAL 100, HIGH 70, MEDIUM 40, LOW 20, other/missing 40), the
document-type weight (PRIMARY_CONTRACT 50, CHANGE_ORDER 30, AMENDMENT 25,
INSURANCE_DOCUMENT 15, CORRESPONDENCE 10, otherwise 0), the status bonus
(EXECUTED_SIGNED +30, DRAFT_UNSIGNED +10, otherwise 0), the
lowercased-filename substring bonuses, and the text-length bonus — and
nothing else. -/
theorem score_document_importance_linear_sum (c : Classification) :
    score_document_importance c =
      importanceBase c + typeWeight c + statusBonus c
        + filenameBonus c + textLengthBonus c := by
  rcases c with ⟨fn, dt, imp, st, tl, recm⟩
  simp only [score_document_importance, importanceBase, typeWeight, statusBonus,
    filenameBonus, textLengthBonus, ite_add_pull, ite_add_pull1, ite_sub_pull1]
  cases imp <;> cases dt <;>
    simp [Option.getD, dictGetD, importance_scores, type_scores] <;>
    ring

/-! ## `ContractIntelligenceService.identify_main_contract`

`identify_main_contract` scores every classification, sorts the scored
documents by descending score (Python's `list.sort(..., reverse=True)` is a
stable sort, modelled by `List.mergeSort` whose comparison accepts ties),
filters out the `PRIMARY_CONTRACT` ones, and picks the first primary whose
lowercased filename carries a main-contract indicator, falling back to the
best primary, or, with no primaries, the best document overall. -/

/-- A scored document: the dict `{"classification": c, "score": s}`. -/
abbrev ScoredDoc := Classification × Int

/-- Scoring pass over all classifications. -/
def scoreDocs (l : List Classification) : List ScoredDoc :=
  l.map fun c => (c, score_document_importance c)

/-- Stable insertion into a descending-sorted list, by an integer key `f`:
`a` goes in front of the first element of strictly smaller key, hence
behind every earlier element of equal key. -/
def insertDescBy (f : α → Int) (a : α) : List α → List α
  | [] => [a]
  | b :: bs => if f b < f a then a :: b :: bs else b :: insertDescBy f a bs

/-- `xs.sort(key=f, reverse=True)`.  Python's `list.sort` is a stable sort,
and a stable sort is uniquely determined by the key and the input order, so
the stable insertion sort below produces exactly the list the Python code
produces. -/
def sortDescBy (f : α → Int) (xs : List α) : List α :=
  xs.foldl (fun acc a => insertDescBy f a acc) []

/-- `scored_docs.sort(key=lambda x: x["score"], reverse=True)`. -/
def sortByScoreDesc (l : List Classification) : List ScoredDoc :=
  sortDescBy (fun d => d.2) (scoreDocs l)

/-- `doc["classification"].get("document_type") == "PRIMARY_CONTRACT"`. -/
def isPrimaryDoc (c : Classification) : Bool :=
  c.document_type == some "PRIMARY_CONTRACT"

/-- The indicator words scanned by `identify_main_contract`. -/
def mainIndicators : List String :=
  ["executed", "clean", "final", "r1", "signed"]

/-- `any(indicator in filename for indicator in [...])` on the lowercased
filename. -/
def hasMainIndicator (c : Classification) : Bool :=
  mainIndicators.any fun w => strIn w (pyLower (c.filename.getD ""))

/-- The ranking metadata that `identify_main_contract` writes into the chosen
classification dict before returning it. -/
structure MainContract where
  classification : Classification
  importance_score : Int
  total_documents : Nat
  ranking_reason : String
deriving Repr, DecidableEq

/-- `ContractIntelligenceService._get_ranking_reason`. -/
def get_ranking_reason (main : Classification)
    (all_primary_contracts : List ScoredDoc) : String :=
  let filename := pyLower (main.filename.getD "")
  if strIn "executed" filename then "Identified as executed/signed contract"
  else if strIn "clean" filename then "Identified as clean/final version"
  else if strIn "final" filename then "Identified as final version"
  else if strIn "r1" filename || strIn "signed" filename then
    "Identified as revised/signed version"
  else if all_primary_contracts.length > 1 then
    "Highest scoring among " ++ toString all_primary_contracts.length
      ++ " primary contracts"
  else "Only primary contract found"

/-- `ContractIntelligenceService.identify_main_contract`.  The Python code
mutates the chosen classification dict, adding the keys `is_main_contract`,
`importance_score`, `total_documents` and `ranking_reason`; the added keys
are modelled as the extra fields of `MainContract`. -/
def identify_main_contract (l : List Classification) : Option MainContract :=
  match l with
  | [] => none
  | c0 :: rest =>
    let sorted := sortByScoreDesc (c0 :: rest)
    let primary_contracts := sorted.filter fun d => isPrimaryDoc d.1
    let main : ScoredDoc :=
      match primary_contracts with
      | p :: _ =>
        match primary_contracts.find? fun d => hasMainIndicator d.1 with
        | some d => d
        | none => p
      | [] => sorted.headD (c0, score_document_importance c0)
    some { classification := main.1,
           importance_score := main.2,
           total_documents := (c0 :: rest).length,
           ranking_reason := get_ranking_reason main.1 primary_contracts }

/-! Structural facts about the descending sort, and the full
characterisation of `identify_main_contract` (claim C3). -/

theorem insertDescBy_perm (f : α → Int) (a : α) (l : List α) :
    (insertDescBy f a l).Perm (a :: l) := by
  induction l with
  | nil => simp [insertDescBy]
  | cons b bs ih =>
    simp only [insertDescBy]
    split
    · exact List.Perm.refl _
    · exact (ih.cons b).trans (List.Perm.swap a b bs)

theorem insertDescBy_pairwise (f : α → Int) (a : α) :
    ∀ l : List α, (l.Pairwise fun x y => f y ≤ f x) →
      ((insertDescBy f a l).Pairwise fun x y => f y ≤ f x) := by
  intro l
  induction l with
  | nil =>
    intro _
    simp [insertDescBy]
  | cons b bs ih =>
    intro h
    rcases List.pairwise_cons.mp h with ⟨hb, hbs⟩
    simp only [insertDescBy]
    split
    · rename_i hlt
      refine List.pairwise_cons.mpr ⟨?_, h⟩
      intro y hy
      rcases List.mem_cons.mp hy with rfl | hy'
      · omega
      · have := hb y hy'
        omega
    · rename_i hge
      refine List.pairwise_cons.mpr ⟨?_, ih hbs⟩
      intro y hy
      rcases List.mem_cons.mp ((insertDescBy_perm f a bs).mem_iff.mp hy) with rfl | hy'
      · omega
      · exact hb y hy'

theorem sortFold_perm (f : α → Int) : ∀ xs acc : List α,
    (xs.foldl (fun acc a => insertDescBy f a acc) acc).Perm (acc ++ xs) := by
  intro xs
  induction xs with
  | nil =>
    intro acc
    simp
  | cons x xs ih =>
    intro acc
    refine (ih (insertDescBy f x acc)).trans ?_
    refine ((insertDescBy_perm f x acc).append_right xs).trans ?_
    simpa using List.perm_middle.symm

theorem sortFold_pairwise (f : α → Int) : ∀ xs acc : List α,
    (acc.Pairwise fun x y => f y ≤ f x) →
    ((xs.foldl (fun acc a => insertDescBy f a acc) acc).Pairwise fun x y => f y ≤ f x) := by
  intro xs
  induction xs with
  | nil =>
    intro acc h
    simpa using h
  | cons x xs ih =>
    intro acc h
    exact ih _ (insertDescBy_pairwise f x acc h)

theorem sortDescBy_perm (f : α → Int) (xs : List α) :
    (sortDescBy f xs).Perm xs := by
  simpa [sortDescBy] using sortFold_perm f xs []

theorem sortDescBy_pairwise (f : α → Int) (xs : List α) :
    (sortDescBy f xs).Pairwise fun x y => f y ≤ f x := by
  simpa [sortDescBy] using sortFold_pairwise f xs [] (by simp)

theorem sortByScoreDesc_perm (l : List Classification) :
    (sortByScoreDesc l).Perm (scoreDocs l) :=
  sortDescBy_perm _ _

theorem mem_sortByScoreDesc {l : List Classification} {d : ScoredDoc} :
    d ∈ sortByScoreDesc l ↔ d.1 ∈ l ∧ d.2 = score_document_importance d.1 := by
  rw [(sortByScoreDesc_perm l).mem_iff]
  constructor
  · intro h
    obtain ⟨c, hc, heq⟩ := List.mem_map.mp h
    rw [← heq]
    exact ⟨hc, rfl⟩
  · rintro ⟨h1, h2⟩
    refine List.mem_map.mpr ⟨d.1, h1, ?_⟩
    obtain ⟨a, b⟩ := d
    simp only at h2
    simp [h2]

theorem sortByScoreDesc_pairwise (l : List Classification) :
    (sortByScoreDesc l).Pairwise fun a b => b.2 ≤ a.2 :=
  sortDescBy_pairwise _ _


/-- **C3.** `identify_main_contract` returns `None` exactly on the empty
list; otherwise it returns an element of the list (with its score and the
added ranking metadata).  When at least one input is a `PRIMARY_CONTRACT`,
the chosen element is primary: it is the first document in
descending-score order that is primary and whose lowercased filename
carries one of the indicators `executed`, `clean`, `final`, `r1`,
`signed`, and when no primary document carries an indicator it is a
highest-scoring primary contract.  With no primary documents the choice is
a highest-scoring document overall. -/
theorem identify_main_contract_spec (l : List Classification) :
    (identify_main_contract l = none ↔ l = [])
    ∧ ∀ m, identify_main_contract l = some m →
        m.classification ∈ l
        ∧ m.importance_score = score_document_importance m.classification
        ∧ ((∃ p ∈ l, isPrimaryDoc p = true) →
            isPrimaryDoc m.classification = true
            ∧ (∀ d, (sortByScoreDesc l).find?
                  (fun x => isPrimaryDoc x.1 && hasMainIndicator x.1) = some d →
                m.classification = d.1)
            ∧ ((sortByScoreDesc l).find?
                  (fun x => isPrimaryDoc x.1 && hasMainIndicator x.1) = none →
                ∀ p ∈ l, isPrimaryDoc p = true →
                  score_document_importance p ≤ m.importance_score))
        ∧ ((∀ p ∈ l, isPrimaryDoc p = false) →
            ∀ c ∈ l, score_document_importance c ≤ m.importance_score) := by
  cases l with
  | nil => simp [identify_main_contract]
  | cons c0 rest =>
    constructor
    · simp [identify_main_contract]
    intro m hm
    simp only [identify_main_contract] at hm
    set sorted := sortByScoreDesc (c0 :: rest) with hsorted
    set prim := sorted.filter (fun d => isPrimaryDoc d.1) with hprimdef
    -- the combined find? over the sorted list equals find? over the filtered list
    have hff : prim.find? (fun d => hasMainIndicator d.1)
        = sorted.find? (fun x => isPrimaryDoc x.1 && hasMainIndicator x.1) := by
      rw [hprimdef, List.find?_filter]
      congr 1
      funext a
      cases h1 : isPrimaryDoc a.1 <;> cases h2 : hasMainIndicator a.1 <;> simp [h1, h2]
    -- sortedness, transferred to prim
    have hpw : sorted.Pairwise fun a b => b.2 ≤ a.2 := sortByScoreDesc_pairwise _
    have hpwp : prim.Pairwise fun a b => b.2 ≤ a.2 :=
      hpw.sublist (by rw [hprimdef]; exact List.filter_sublist _)
    -- membership in prim characterised
    have hmemp : ∀ d : ScoredDoc, d ∈ prim ↔
        (d.1 ∈ c0 :: rest ∧ d.2 = score_document_importance d.1 ∧ isPrimaryDoc d.1 = true) := by
      intro d
      rw [hprimdef, List.mem_filter, mem_sortByScoreDesc]
      tauto
    -- sorted is nonempty
    have hlen : sorted.length = (c0 :: rest).length := by
      rw [hsorted]
      calc (sortByScoreDesc (c0 :: rest)).length
          = (scoreDocs (c0 :: rest)).length := (sortByScoreDesc_perm _).length_eq
        _ = (c0 :: rest).length := List.length_map _ _
    cases hs : sorted with
    | nil => rw [hs] at hlen; simp at hlen
    | cons s ss =>
    -- every document of the list is bounded by the head of sorted
    have hheadmax : ∀ c ∈ c0 :: rest, score_document_importance c ≤ s.2 := by
      intro c hc
      have hmem : (c, score_document_importance c) ∈ sorted :=
        mem_sortByScoreDesc.mpr ⟨hc, rfl⟩
      rw [hs] at hmem
      rcases List.mem_cons.mp hmem with h | h
      · rw [← h]
      · have := (List.pairwise_cons.mp (hs ▸ hpw)).1 _ h
        exact this
    cases hp : prim with
    | nil =>
      -- no primary contracts: main is the head of sorted
      rw [hp] at hm
      rw [hs] at hm
      simp only [List.headD] at hm
      -- hm : some {..s..} = some m
      have hmval := (Option.some.inj hm).symm
      subst hmval
      have hsmem : s ∈ sorted := by rw [hs]; exact List.mem_cons_self _ _
      have hs1 := mem_sortByScoreDesc.mp hsmem
      refine ⟨hs1.1, hs1.2, ?_, ?_⟩
      · rintro ⟨p, hpmem, hpp⟩
        exfalso
        have : (p, score_document_importance p) ∈ prim :=
          (hmemp _).mpr ⟨hpmem, rfl, hpp⟩
        rw [hp] at this
        simp at this
      · intro _ c hc
        exact hheadmax c hc
    | cons p ps =>
      -- there is at least one primary contract
      have hpmem : p ∈ prim := by rw [hp]; exact List.mem_cons_self _ _
      have hpchar := (hmemp p).mp hpmem
      cases hf : prim.find? (fun d => hasMainIndicator d.1) with
      | some d =>
        rw [hp] at hm
        have hf2 : (p :: ps).find? (fun d => hasMainIndicator d.1) = some d := hp ▸ hf
        rw [hf2] at hm
        simp only [] at hm
        have hdinp : d ∈ prim := List.mem_of_find?_eq_some hf
        have hdchar := (hmemp d).mp hdinp
        have hmval := (Option.some.inj hm).symm
        subst hmval
        refine ⟨hdchar.1, hdchar.2.1, ?_, ?_⟩
        · intro _
          refine ⟨hdchar.2.2, ?_, ?_⟩
          · intro d' hd'
            rw [← hs, ← hff, hf] at hd'
            exact congrArg Prod.fst (Option.some.inj hd')
          · intro hnone
            rw [← hs, ← hff, hf] at hnone
            exact absurd hnone (by simp)
        · intro hall
          exfalso
          have hfalse := hall p.1 hpchar.1
          rw [hpchar.2.2] at hfalse
          exact absurd hfalse (by simp)
      | none =>
        rw [hp] at hm
        have hf2 : (p :: ps).find? (fun d => hasMainIndicator d.1) = none := hp ▸ hf
        rw [hf2] at hm
        simp only [] at hm
        have hmval := (Option.some.inj hm).symm
        subst hmval
        refine ⟨hpchar.1, hpchar.2.1, ?_, ?_⟩
        · intro _
          refine ⟨hpchar.2.2, ?_, ?_⟩
          · intro d' hd'
            rw [← hs, ← hff, hf] at hd'
            exact absurd hd' (by simp)
          · intro _ q hq hqprim
            have hqmem : (q, score_document_importance q) ∈ prim :=
              (hmemp _).mpr ⟨hq, rfl, hqprim⟩
            have hpwp2 : List.Pairwise (fun a b => b.2 ≤ a.2) (p :: ps) := by
              rw [← hp]; exact hpwp
            rw [hp] at hqmem
            rcases List.mem_cons.mp hqmem with h | h
            · exact le_of_eq (congrArg Prod.snd h)
            · exact (List.pairwise_cons.mp hpwp2).1 _ h
        · intro hall
          exfalso
          have hfalse := hall p.1 hpchar.1
          rw [hpchar.2.2] at hfalse
          exact absurd hfalse (by simp)



/-- Concrete classifications exercising `identify_main_contract`. -/
def wDocA : Classification :=
  { filename := some "Main_Contract_Executed.pdf",
    document_type := some "PRIMARY_CONTRACT",
    importance := some "HIGH",
    status := some "EXECUTED_SIGNED" }

/-- A lower-priority companion document for the same witness input. -/
def wDocB : Classification :=
  { filename := some "change_order_1.pdf",
    document_type := some "CHANGE_ORDER" }

/-- Witness for C3: on `[wDocB, wDocA]` a primary contract exists, and the
theorem yields that the chosen main contract is primary. -/
theorem identify_main_contract_spec_witness :
    (∃ p ∈ [wDocB, wDocA], isPrimaryDoc p = true)
    ∧ isPrimaryDoc (MainContract.classification
        { classification := wDocA, importance_score := 175,
          total_documents := 2,
          ranking_reason := "Identified as executed/signed contract" }) = true := by
  have hex : ∃ p ∈ [wDocB, wDocA], isPrimaryDoc p = true := by decide
  exact ⟨hex,
    (((identify_main_contract_spec [wDocB, wDocA]).2
        { classification := wDocA, importance_score := 175,
          total_documents := 2,
          ranking_reason := "Identified as executed/signed contract" }
        (by decide)).2.2.1 hex).1⟩



/-! ## `ContractIntelligenceService.get_ranked_document_list` -/

/-- Python truthiness of the `main_filename` value (`None` and the empty
string are falsy). -/
def pyTruthy : Option String → Bool
  | none => false
  | some s => s != ""

/-- An enhanced classification dict as built inside
`get_ranked_document_list` before ranks are assigned: the copy of the input
classification plus `importance_score`, `is_main_contract` and (for the
main contract) `ranking_reason`. -/
structure EnhancedDoc where
  classification : Classification
  importance_score : Int
  is_main_contract : Bool
  ranking_reason : Option String
deriving Repr, DecidableEq

/-- The `main_filename = main_contract_data.get("filename") if
main_contract_data else None` step. -/
def mainFilenameOf : Option MainContract → Option String
  | some m => m.classification.filename
  | none => none

/-- The per-classification loop body of `get_ranked_document_list`. -/
def enhanceDoc (main_contract_data : Option MainContract)
    (main_filename : Option String) (c : Classification) : EnhancedDoc :=
  let score := score_document_importance c
  if pyTruthy main_filename && (c.filename == main_filename) then
    { classification := c, importance_score := score,
      is_main_contract := true,
      ranking_reason := main_contract_data.map MainContract.ranking_reason }
  else
    { classification := c, importance_score := score,
      is_main_contract := false, ranking_reason := none }

/-- A ranked document: an enhanced classification after the final loop of
`get_ranked_document_list` added its `rank` and `priority_level`. -/
structure RankedDoc where
  classification : Classification
  importance_score : Int
  is_main_contract : Bool
  ranking_reason : Option String
  rank : Nat
  priority_level : String
deriving Repr, DecidableEq

/-- `for i, doc in enumerate(scored_docs, 1)`: assign ranks `i, i+1, ...`
and the priority level of each document. -/
def assignRanks : Nat → List EnhancedDoc → List RankedDoc
  | _, [] => []
  | i, d :: ds =>
    { classification := d.classification,
      importance_score := d.importance_score,
      is_main_contract := d.is_main_contract,
      ranking_reason := d.ranking_reason,
      rank := i,
      priority_level :=
        if d.is_main_contract then "MAIN_CONTRACT"
        else if d.classification.document_type = some "PRIMARY_CONTRACT" ∧ i ≤ 3 then
          "HIGH_PRIORITY"
        else if d.classification.recommendation = some "ANALYZE_FULLY" then
          "ANALYZE_RECOMMENDED"
        else "SUPPORTING_DOCUMENT" } :: assignRanks (i + 1) ds

/-- `ContractIntelligenceService.get_ranked_document_list`.  (In Python the
main classification dict was mutated by `identify_main_contract`; its copy
therefore also carries the mutation keys.  All keys the ranking loop reads
or overwrites — the six classification keys, `importance_score` and
`is_main_contract` — are modelled; `ranking_reason` is modelled as set by
the flag-assignment branch that writes it.) -/
def get_ranked_document_list (l : List Classification) : List RankedDoc :=
  match l with
  | [] => []
  | _ :: _ =>
    let main_contract_data := identify_main_contract l
    let main_filename := mainFilenameOf main_contract_data
    let scored_docs := l.map (enhanceDoc main_contract_data main_filename)
    let sorted := sortDescBy (fun d => d.importance_score) scored_docs
    assignRanks 1 sorted




/-- Dropping the rank/priority fields recovers the enhanced document. -/
def eraseRank (d : RankedDoc) : EnhancedDoc :=
  { classification := d.classification, importance_score := d.importance_score,
    is_main_contract := d.is_main_contract, ranking_reason := d.ranking_reason }

theorem assignRanks_eraseRank : ∀ (i : Nat) (xs : List EnhancedDoc),
    (assignRanks i xs).map eraseRank = xs := by
  intro i xs
  induction xs generalizing i with
  | nil => simp [assignRanks]
  | cons d ds ih => simp [assignRanks, eraseRank, ih]

theorem assignRanks_map_rank : ∀ (i : Nat) (xs : List EnhancedDoc),
    (assignRanks i xs).map RankedDoc.rank = List.range' i xs.length := by
  intro i xs
  induction xs generalizing i with
  | nil => simp [assignRanks]
  | cons d ds ih => simp [assignRanks, List.range', ih]

theorem enhanceDoc_classification (md : Option MainContract) (mf : Option String)
    (c : Classification) : (enhanceDoc md mf c).classification = c := by
  simp only [enhanceDoc]
  split <;> rfl

theorem enhanceDoc_score (md : Option MainContract) (mf : Option String)
    (c : Classification) :
    (enhanceDoc md mf c).importance_score = score_document_importance c := by
  simp only [enhanceDoc]
  split <;> rfl

theorem enhanceDoc_flag (md : Option MainContract) (mf : Option String)
    (c : Classification) :
    (enhanceDoc md mf c).is_main_contract = (pyTruthy mf && (c.filename == mf)) := by
  simp only [enhanceDoc]
  split <;> rename_i h <;> simp_all

/-- The chosen main contract is one of the inputs, carrying its score. -/
theorem identify_main_mem :
    ∀ (l : List Classification) (m : MainContract),
      identify_main_contract l = some m →
      m.classification ∈ l
        ∧ m.importance_score = score_document_importance m.classification := by
  intro l m hm
  cases l with
  | nil => simp [identify_main_contract] at hm
  | cons c0 rest =>
    simp only [identify_main_contract] at hm
    set sorted := sortByScoreDesc (c0 :: rest) with hsorted
    set prim := sorted.filter (fun d => isPrimaryDoc d.1) with hprimdef
    have hfromsorted : ∀ d : ScoredDoc, d ∈ sorted →
        m.classification = d.1 → m.importance_score = d.2 →
        m.classification ∈ c0 :: rest
          ∧ m.importance_score = score_document_importance m.classification := by
      intro d hd h1 h2
      have hchar := mem_sortByScoreDesc.mp hd
      rw [h1, h2]
      exact ⟨hchar.1, hchar.2⟩
    cases hp : prim with
    | nil =>
      have hlen : sorted.length = (c0 :: rest).length := by
        rw [hsorted]
        calc (sortByScoreDesc (c0 :: rest)).length
            = (scoreDocs (c0 :: rest)).length := (sortByScoreDesc_perm _).length_eq
          _ = (c0 :: rest).length := List.length_map _ _
      cases hs2 : sorted with
      | nil => rw [hs2] at hlen; simp at hlen
      | cons s ss =>
        rw [hp, hs2] at hm
        simp only [List.headD] at hm
        refine hfromsorted s ?_ ?_ ?_
        · rw [hs2]; exact List.mem_cons_self _ _
        · rw [← Option.some.inj hm]
        · rw [← Option.some.inj hm]
    | cons p ps =>
      cases hf : prim.find? (fun d => hasMainIndicator d.1) with
      | some d =>
        rw [hp] at hm
        have hf2 : (p :: ps).find? (fun d => hasMainIndicator d.1) = some d := hp ▸ hf
        rw [hf2] at hm
        simp only [] at hm
        refine hfromsorted d ?_ ?_ ?_
        · exact List.mem_of_mem_filter (hprimdef ▸ List.mem_of_find?_eq_some hf)
        · rw [← Option.some.inj hm]
        · rw [← Option.some.inj hm]
      | none =>
        rw [hp] at hm
        have hf2 : (p :: ps).find? (fun d => hasMainIndicator d.1) = none := hp ▸ hf
        rw [hf2] at hm
        simp only [] at hm
        have hpmem2 : p ∈ List.filter (fun d => isPrimaryDoc d.1) sorted := by
          rw [← hprimdef, hp]
          exact List.mem_cons_self _ _
        refine hfromsorted p (List.mem_of_mem_filter hpmem2) ?_ ?_
        · rw [← Option.some.inj hm]
        · rw [← Option.some.inj hm]

theorem countP_filename_eq_one :
    ∀ (l : List Classification) (f : String),
      (l.Pairwise fun a b => a.filename ≠ b.filename) →
      ∀ c ∈ l, c.filename = some f →
      l.countP (fun x => x.filename == some f) = 1 := by
  intro l f
  induction l with
  | nil =>
    intro _ c hc
    simp at hc
  | cons a as ih =>
    intro hdist c hc hcf
    rcases List.pairwise_cons.mp hdist with ⟨ha, has⟩
    rcases List.mem_cons.mp hc with rfl | hc'
    · rw [List.countP_cons_of_pos _ _ (by simp [hcf])]
      have h0 : as.countP (fun x => x.filename == some f) = 0 := by
        rw [List.countP_eq_zero]
        intro x hx
        have hne := ha x hx
        rw [hcf] at hne
        simp only [beq_iff_eq]
        intro hxf
        exact hne hxf.symm
      omega
    · have hne : a.filename ≠ some f := by
        have := ha c hc'
        rw [hcf] at this
        exact this
      rw [List.countP_cons_of_neg _ _ (by simp [hne])]
      exact ih has c hc' hcf



/-- **C10 (amended).** `get_ranked_document_list` returns copies of the
input classifications (a permutation of the input), sorted in descending
`importance_score` order, each carrying its own score and the rank fields
`1..n`; *provided the chosen main contract's filename is present and
non-empty*, an entry has `is_main_contract = True` exactly when its
filename equals the filename chosen by `identify_main_contract` (so with
pairwise-distinct filenames exactly one entry is flagged); when the chosen
main contract's filename is missing or empty, every entry is flagged
`False`. -/
theorem get_ranked_document_list_spec (l : List Classification) :
    ((get_ranked_document_list l).map RankedDoc.classification).Perm l
    ∧ ((get_ranked_document_list l).Pairwise fun a b =>
        b.importance_score ≤ a.importance_score)
    ∧ (∀ d ∈ get_ranked_document_list l,
        d.importance_score = score_document_importance d.classification)
    ∧ (get_ranked_document_list l).map RankedDoc.rank = List.range' 1 l.length
    ∧ (∀ m, identify_main_contract l = some m →
        (∀ f, m.classification.filename = some f → f ≠ "" →
          (∀ d ∈ get_ranked_document_list l,
            d.is_main_contract = true ↔ d.classification.filename = some f)
          ∧ ((l.Pairwise fun a b => a.filename ≠ b.filename) →
            (get_ranked_document_list l).countP (fun d => d.is_main_contract) = 1))
        ∧ ((m.classification.filename = none ∨ m.classification.filename = some "") →
          ∀ d ∈ get_ranked_document_list l, d.is_main_contract = false)) := by
  cases l with
  | nil =>
    refine ⟨by simp [get_ranked_document_list], by simp [get_ranked_document_list],
      by simp [get_ranked_document_list], by simp [get_ranked_document_list], ?_⟩
    intro m hm
    simp [identify_main_contract] at hm
  | cons c0 rest =>
    have hL : get_ranked_document_list (c0 :: rest)
        = assignRanks 1 (sortDescBy (fun d => d.importance_score)
            ((c0 :: rest).map (enhanceDoc (identify_main_contract (c0 :: rest))
              (mainFilenameOf (identify_main_contract (c0 :: rest)))))) := by
      simp only [get_ranked_document_list]
    set md := identify_main_contract (c0 :: rest) with hmd
    set scored := (c0 :: rest).map (enhanceDoc md (mainFilenameOf md)) with hscored
    set sorted := sortDescBy (fun d : EnhancedDoc => d.importance_score) scored
      with hsortdef
    set L := assignRanks 1 sorted with hLdef
    rw [hL] at *
    have hperm : sorted.Perm scored := sortDescBy_perm _ _
    have hpw := sortDescBy_pairwise (fun d : EnhancedDoc => d.importance_score) scored
    have herase : L.map eraseRank = sorted := assignRanks_eraseRank 1 sorted
    -- membership characterisation of the final list
    have hmem : ∀ d ∈ L, ∃ c ∈ c0 :: rest, eraseRank d = enhanceDoc md (mainFilenameOf md) c := by
      intro d hd
      have h1 : eraseRank d ∈ sorted := by
        rw [← herase]
        exact List.mem_map_of_mem _ hd
      have h2 : eraseRank d ∈ scored := hperm.mem_iff.mp h1
      obtain ⟨c, hc, hce⟩ := List.mem_map.mp (hscored ▸ h2)
      exact ⟨c, hc, hce.symm⟩
    refine ⟨?_, ?_, ?_, ?_, ?_⟩
    · -- permutation of the inputs
      have h1 : L.map RankedDoc.classification
          = sorted.map EnhancedDoc.classification := by
        rw [← herase, List.map_map]
        rfl
      rw [h1]
      refine (hperm.map EnhancedDoc.classification).trans ?_
      rw [hscored, List.map_map]
      have : EnhancedDoc.classification ∘ enhanceDoc md (mainFilenameOf md) = id := by
        funext c
        simp [enhanceDoc_classification]
      rw [this, List.map_id]
    · -- sorted descending by importance_score
      have h1 : (L.map eraseRank).Pairwise
          (fun x y : EnhancedDoc => y.importance_score ≤ x.importance_score) := by
        rw [herase]
        exact hpw
      exact (List.pairwise_map.mp h1).imp fun h => h
    · -- each entry carries its own score
      intro d hd
      obtain ⟨c, _, hce⟩ := hmem d hd
      have h1 : d.importance_score = (eraseRank d).importance_score := rfl
      have h2 : d.classification = (eraseRank d).classification := rfl
      rw [h1, h2, hce, enhanceDoc_score, enhanceDoc_classification]
    · -- ranks are 1..n
      rw [hLdef, assignRanks_map_rank]
      congr 1
      calc sorted.length = scored.length := hperm.length_eq
        _ = (c0 :: rest).length := by rw [hscored, List.length_map]
    · -- the main-contract flags
      intro m hm
      have hflag : ∀ d ∈ L,
          d.is_main_contract
            = (pyTruthy (mainFilenameOf md) && (d.classification.filename == mainFilenameOf md)) := by
        intro d hd
        obtain ⟨c, _, hce⟩ := hmem d hd
        have h1 : d.is_main_contract = (eraseRank d).is_main_contract := rfl
        have h2 : d.classification = (eraseRank d).classification := rfl
        rw [h1, h2, hce, enhanceDoc_flag, enhanceDoc_classification]
      have hm2 : identify_main_contract (c0 :: rest) = some m := hmd.symm.trans hm
      have hmf : mainFilenameOf md = m.classification.filename := by
        rw [hm]
        rfl
      constructor
      · intro f hf hfne
        constructor
        · intro d hd
          rw [hflag d hd, hmf, hf]
          have ht : pyTruthy (some f) = true := by
            simp [pyTruthy, hfne]
          rw [ht]
          simp [beq_iff_eq]
        · intro hdist
          -- count the flagged entries
          have hc1 : L.countP (fun d => d.is_main_contract)
              = L.countP (fun d =>
                  pyTruthy (mainFilenameOf md) && (d.classification.filename == mainFilenameOf md)) := by
            apply List.countP_congr
            intro d hd
            simp only [hflag d hd]
          have hc2 : L.countP (fun d =>
                  pyTruthy (mainFilenameOf md) && (d.classification.filename == mainFilenameOf md))
              = sorted.countP (fun e =>
                  pyTruthy (mainFilenameOf md) && (e.classification.filename == mainFilenameOf md)) := by
            rw [← herase, List.countP_map]
            rfl
          have hc3 : sorted.countP (fun e =>
                  pyTruthy (mainFilenameOf md) && (e.classification.filename == mainFilenameOf md))
              = scored.countP (fun e =>
                  pyTruthy (mainFilenameOf md) && (e.classification.filename == mainFilenameOf md)) :=
            hperm.countP_eq _
          have hc4 : scored.countP (fun e =>
                  pyTruthy (mainFilenameOf md) && (e.classification.filename == mainFilenameOf md))
              = (c0 :: rest).countP (fun c =>
                  pyTruthy (mainFilenameOf md) && (c.filename == mainFilenameOf md)) := by
            rw [hscored, List.countP_map]
            apply List.countP_congr
            intro c _
            simp only [Function.comp_apply, enhanceDoc_classification]
          rw [hc1, hc2, hc3, hc4, hmf, hf]
          have ht : pyTruthy (some f) = true := by simp [pyTruthy, hfne]
          have hc5 : (c0 :: rest).countP (fun c => pyTruthy (some f) && (c.filename == some f))
              = (c0 :: rest).countP (fun c => c.filename == some f) := by
            apply List.countP_congr
            intro c _
            rw [ht, Bool.true_and]
          rw [hc5]
          exact countP_filename_eq_one (c0 :: rest) f hdist m.classification
            (identify_main_mem _ _ hm2).1 hf
      · intro hnone d hd
        rw [hflag d hd, hmf]
        rcases hnone with h | h <;> rw [h] <;> simp [pyTruthy]



/-- **C10 (counterexample).** The claim fails as stated: on the single
classification whose filename is the empty string the filenames are
pairwise distinct and `identify_main_contract` chooses that classification,
yet no entry of `get_ranked_document_list` carries `is_main_contract =
True`, because the empty `main_filename` is falsy in Python. -/
theorem get_ranked_cex :
    (identify_main_contract [({ filename := some "" } : Classification)]).map
        MainContract.classification
      = some { filename := some "" }
    ∧ ([({ filename := some "" } : Classification)].Pairwise
        fun a b => a.filename ≠ b.filename)
    ∧ (get_ranked_document_list [({ filename := some "" } : Classification)]).map
        RankedDoc.is_main_contract = [false] := by
  refine ⟨by decide, by simp, by decide⟩

/-- Witness for the amended C10: a two-document input with distinct
non-empty filenames on which the theorem yields exactly one flagged
entry. -/
theorem get_ranked_witness :
    (identify_main_contract [wDocB, wDocA]
      = some { classification := wDocA, importance_score := 175,
               total_documents := 2,
               ranking_reason := "Identified as executed/signed contract" })
    ∧ ([wDocB, wDocA].Pairwise fun a b => a.filename ≠ b.filename)
    ∧ (get_ranked_document_list [wDocB, wDocA]).countP
        (fun d => d.is_main_contract) = 1 := by
  refine ⟨by decide, by decide, ?_⟩
  have h := (get_ranked_document_list_spec [wDocB, wDocA]).2.2.2.2
    { classification := wDocA, importance_score := 175,
      total_documents := 2,
      ranking_reason := "Identified as executed/signed contract" }
    (by decide)
  exact (h.1 "Main_Contract_Executed.pdf" (by decide) (by decide)).2 (by decide)




/-! ## `ComprehensiveClaudeAnalyzer._ask_claude`

The HTTP interaction is nondeterministic, so the embedding receives an
oracle mapping each attempt index to the outcome of that attempt's
`requests.post` call: an HTTP response (status code and text), a timeout
exception, or another request exception.  The prompt and `max_tokens`
parameters only shape the request payload and do not influence the control
flow, so they are not modelled.  `time.sleep(w)` is recorded by appending
`w` to the `waits` trace. -/

/-- Outcome of one `requests.post` call. -/
inductive HttpOutcome where
  | response (status : Nat) (body : String)
  | timeout
  | requestError (msg : String)
deriving Repr, DecidableEq

/-- Observable behaviour of one `_ask_claude` call: the returned stripped
text or the raised exception message, the number of HTTP attempts made, and
the sleeps performed (in seconds, in order). -/
structure AskResult where
  result : Except String String
  attempts : Nat
  waits : List Nat
deriving Repr

/-- The `for attempt in range(max_retries + 1)` loop of `_ask_claude`,
structurally recursive on the remaining number of loop iterations. -/
def ask_claude_loop (oracle : Nat → HttpOutcome) (max_retries : Nat) :
    Nat → Nat → AskResult
  | _, 0 =>
    -- the loop ran out of iterations: `raise Exception("Unexpected error in retry loop")`
    { result := .error "Unexpected error in retry loop", attempts := 0, waits := [] }
  | attempt, fuel + 1 =>
    match oracle attempt with
    | .response code body =>
      if code = 200 then
        { result := .ok (pyStrip body), attempts := 1, waits := [] }
      else if code = 529 then
        if attempt < max_retries then
          let wait_time := 2 ^ attempt * 5
          let rest := ask_claude_loop oracle max_retries (attempt + 1) fuel
          { result := rest.result, attempts := rest.attempts + 1,
            waits := wait_time :: rest.waits }
        else
          { result := .error ("Claude API overloaded after "
              ++ toString (max_retries + 1) ++ " attempts. Please try again later."),
            attempts := 1, waits := [] }
      else if code = 429 then
        if attempt < max_retries then
          let wait_time := 30 + attempt * 10
          let rest := ask_claude_loop oracle max_retries (attempt + 1) fuel
          { result := rest.result, attempts := rest.attempts + 1,
            waits := wait_time :: rest.waits }
        else
          { result := .error ("Claude API rate limited after "
              ++ toString (max_retries + 1) ++ " attempts."),
            attempts := 1, waits := [] }
      else
        { result := .error ("Claude API error: " ++ toString code ++ " - " ++ body),
          attempts := 1, waits := [] }
    | .timeout =>
      if attempt < max_retries then
        let rest := ask_claude_loop oracle max_retries (attempt + 1) fuel
        { result := rest.result, attempts := rest.attempts + 1, waits := 5 :: rest.waits }
      else
        { result := .error "Request timeout after multiple attempts",
          attempts := 1, waits := [] }
    | .requestError msg =>
      if attempt < max_retries then
        let rest := ask_claude_loop oracle max_retries (attempt + 1) fuel
        { result := rest.result, attempts := rest.attempts + 1, waits := 5 :: rest.waits }
      else
        { result := .error ("Request failed after multiple attempts: " ++ msg),
          attempts := 1, waits := [] }

/-- `ComprehensiveClaudeAnalyzer._ask_claude` with retry bound
`max_retries`. -/
def ask_claude (oracle : Nat → HttpOutcome) (max_retries : Nat) : AskResult :=
  ask_claude_loop oracle max_retries 0 (max_retries + 1)

/-! Spec-side notions for claim C4, phrased from the specification: which
outcomes are retried, how long each retry waits, and what the final
attempt produces. -/

/-- An outcome the spec says is retried: HTTP 529, HTTP 429, or a
timeout/request exception. -/
def retryable (o : HttpOutcome) : Bool :=
  match o with
  | .response code _ => code == 529 || code == 429
  | .timeout => true
  | .requestError _ => true

/-- The wait after a retried attempt `k`: exponential `5 * 2^k` for 529,
fixed-increment `30 + 10*k` for 429, five seconds for request errors. -/
def waitFor (o : HttpOutcome) (k : Nat) : Nat :=
  match o with
  | .response code _ =>
    if code = 529 then 2 ^ k * 5 else if code = 429 then 30 + k * 10 else 5
  | _ => 5

/-- What the call produces when the loop stops at an attempt with outcome
`o`: the stripped body on 200, the matching exception otherwise. -/
def resultFor (o : HttpOutcome) (max_retries : Nat) : Except String String :=
  match o with
  | .response code body =>
    if code = 200 then .ok (pyStrip body)
    else if code = 529 then
      .error ("Claude API overloaded after " ++ toString (max_retries + 1)
        ++ " attempts. Please try again later.")
    else if code = 429 then
      .error ("Claude API rate limited after " ++ toString (max_retries + 1)
        ++ " attempts.")
    else .error ("Claude API error: " ++ toString code ++ " - " ++ body)
  | .timeout => .error "Request timeout after multiple attempts"
  | .requestError msg => .error ("Request failed after multiple attempts: " ++ msg)

/-- The index of the attempt at which the loop stops: the first attempt
whose outcome is not retried, capped at `max_retries`. -/
def stopAux (oracle : Nat → HttpOutcome) (max_retries : Nat) : Nat → Nat → Nat
  | 0, a => a
  | fuel + 1, a =>
    if a < max_retries && retryable (oracle a) then stopAux oracle max_retries fuel (a + 1)
    else a

/-- The stopping attempt of `ask_claude oracle max_retries`. -/
def stopIndex (oracle : Nat → HttpOutcome) (max_retries : Nat) : Nat :=
  stopAux oracle max_retries (max_retries + 1) 0

theorem stopAux_ge (oracle : Nat → HttpOutcome) (n : Nat) :
    ∀ fuel a, a ≤ stopAux oracle n fuel a := by
  intro fuel
  induction fuel with
  | zero => intro a; simp [stopAux]
  | succ fuel ih =>
    intro a
    simp only [stopAux]
    split
    · exact Nat.le_trans (Nat.le_succ a) (ih (a + 1))
    · exact Nat.le_refl a

theorem stopAux_le (oracle : Nat → HttpOutcome) (n : Nat) :
    ∀ fuel a, a ≤ n → stopAux oracle n fuel a ≤ n := by
  intro fuel
  induction fuel with
  | zero => intro a ha; simpa [stopAux] using ha
  | succ fuel ih =>
    intro a ha
    simp only [stopAux]
    split
    · rename_i h
      have h1 : a < n := by
        rcases (Bool.and_eq_true _ _).mp h with ⟨h1, _⟩
        exact of_decide_eq_true h1
      exact ih (a + 1) h1
    · exact ha



theorem ask_loop_spec (oracle : Nat → HttpOutcome) (n : Nat) :
    ∀ fuel a, a + fuel = n →
      ask_claude_loop oracle n a (fuel + 1)
        = { result := resultFor (oracle (stopAux oracle n (fuel + 1) a)) n,
            attempts := stopAux oracle n (fuel + 1) a - a + 1,
            waits := (List.range' a (stopAux oracle n (fuel + 1) a - a)).map
              (fun k => waitFor (oracle k) k) } := by
  intro fuel
  induction fuel with
  | zero =>
    intro a ha
    have ha' : a = n := by omega
    subst ha'
    have hstop : stopAux oracle a (0 + 1) a = a := by
      simp [stopAux]
    rw [hstop, ask_claude_loop.eq_2]
    cases h : oracle a with
    | response code body =>
      simp only [h, resultFor, lt_self_iff_false, if_false]
      split_ifs with h200 h529 h429 <;> simp [Nat.sub_self, List.range']
    | timeout =>
      simp [h, resultFor, lt_self_iff_false, Nat.sub_self, List.range']
    | requestError msg =>
      simp [h, resultFor, lt_self_iff_false, Nat.sub_self, List.range']
  | succ fuel ih =>
    intro a ha
    have hlt : a < n := by omega
    have ha2 : a + 1 + fuel = n := by omega
    rw [ask_claude_loop.eq_2]
    cases h : oracle a with
    | response code body =>
      by_cases h200 : code = 200
      · have hstop : stopAux oracle n (fuel + 1 + 1) a = a := by
          simp [stopAux, h, retryable, h200]
        rw [hstop]
        simp [h, h200, resultFor, Nat.sub_self, List.range']
      · by_cases h529 : code = 529
        · have hstop : stopAux oracle n (fuel + 1 + 1) a
              = stopAux oracle n (fuel + 1) (a + 1) := by
            simp [stopAux, h, retryable, h529, hlt]
          rw [hstop]
          set st := stopAux oracle n (fuel + 1) (a + 1) with hst
          have hge : a + 1 ≤ st := stopAux_ge oracle n (fuel + 1) (a + 1)
          simp only [h]
          rw [if_neg h200, if_pos h529, if_pos hlt]
          rw [ih (a + 1) ha2]
          simp only [AskResult.mk.injEq]
          refine ⟨trivial, by omega, ?_⟩
          have hsub : st - a = (st - (a + 1)) + 1 := by omega
          rw [hsub, List.range'_succ, List.map_cons]
          simp [waitFor, h, h529]
        · by_cases h429 : code = 429
          · have hstop : stopAux oracle n (fuel + 1 + 1) a
                = stopAux oracle n (fuel + 1) (a + 1) := by
              simp [stopAux, h, retryable, h429, hlt]
            rw [hstop]
            set st := stopAux oracle n (fuel + 1) (a + 1) with hst
            have hge : a + 1 ≤ st := stopAux_ge oracle n (fuel + 1) (a + 1)
            simp only [h]
            rw [if_neg h200, if_neg h529, if_pos h429, if_pos hlt]
            rw [ih (a + 1) ha2]
            simp only [AskResult.mk.injEq]
            refine ⟨trivial, by omega, ?_⟩
            have hsub : st - a = (st - (a + 1)) + 1 := by omega
            rw [hsub, List.range'_succ, List.map_cons]
            simp [waitFor, h, h529, h429]
          · have hstop : stopAux oracle n (fuel + 1 + 1) a = a := by
              simp [stopAux, h, retryable, h529, h429]
            rw [hstop]
            simp only [h]
            rw [if_neg h200, if_neg h529, if_neg h429]
            simp [resultFor, h, h200, h529, h429, Nat.sub_self, List.range']
    | timeout =>
      have hstop : stopAux oracle n (fuel + 1 + 1) a
          = stopAux oracle n (fuel + 1) (a + 1) := by
        simp [stopAux, h, retryable, hlt]
      rw [hstop]
      set st := stopAux oracle n (fuel + 1) (a + 1) with hst
      have hge : a + 1 ≤ st := stopAux_ge oracle n (fuel + 1) (a + 1)
      simp only [h]
      rw [if_pos hlt]
      rw [ih (a + 1) ha2]
      simp only [AskResult.mk.injEq]
      refine ⟨trivial, by omega, ?_⟩
      have hsub : st - a = (st - (a + 1)) + 1 := by omega
      rw [hsub, List.range'_succ, List.map_cons]
      simp [waitFor, h]
    | requestError msg =>
      have hstop : stopAux oracle n (fuel + 1 + 1) a
          = stopAux oracle n (fuel + 1) (a + 1) := by
        simp [stopAux, h, retryable, hlt]
      rw [hstop]
      set st := stopAux oracle n (fuel + 1) (a + 1) with hst
      have hge : a + 1 ≤ st := stopAux_ge oracle n (fuel + 1) (a + 1)
      simp only [h]
      rw [if_pos hlt]
      rw [ih (a + 1) ha2]
      simp only [AskResult.mk.injEq]
      refine ⟨trivial, by omega, ?_⟩
      have hsub : st - a = (st - (a + 1)) + 1 := by omega
      rw [hsub, List.range'_succ, List.map_cons]
      simp [waitFor, h]



theorem stopAux_all_retryable (oracle : Nat → HttpOutcome) (n : Nat) :
    ∀ fuel a, a ≤ n → a + fuel = n + 1 →
      (∀ k, a ≤ k → k ≤ n → retryable (oracle k) = true) →
      stopAux oracle n fuel a = n := by
  intro fuel
  induction fuel with
  | zero =>
    intro a h1 h2 _
    exfalso
    omega
  | succ fuel ih =>
    intro a h1 h2 hall
    simp only [stopAux]
    by_cases hlt : a < n
    · rw [if_pos]
      · exact ih (a + 1) (by omega) (by omega) fun k hk1 hk2 => hall k (by omega) hk2
      · simp [hlt, hall a (Nat.le_refl a) h1]
    · have ha : a = n := by omega
      subst ha
      rw [if_neg]
      simp [lt_self_iff_false]

theorem resultFor_error_of_retryable (o : HttpOutcome) (n : Nat)
    (h : retryable o = true) : ∃ msg, resultFor o n = Except.error msg := by
  cases o with
  | response code body =>
    simp only [retryable] at h
    rcases Bool.or_eq_true _ _ |>.mp h with h5 | h4
    · have hc : code = 529 := by simpa using h5
      subst hc
      exact ⟨"Claude API overloaded after " ++ toString (n + 1)
        ++ " attempts. Please try again later.", by simp [resultFor]⟩
    · have hc : code = 429 := by simpa using h4
      subst hc
      exact ⟨"Claude API rate limited after " ++ toString (n + 1)
        ++ " attempts.", by simp [resultFor]⟩
  | timeout => exact ⟨_, rfl⟩
  | requestError msg => exact ⟨_, rfl⟩

/-- **C4.** For every oracle of HTTP outcomes and every `max_retries = n`,
`_ask_claude` attempts the request exactly `stopIndex + 1 ≤ n + 1` times;
the waits performed are exactly `waitFor` of each retried attempt `k`
(`5 * 2^k` seconds for a 529, `30 + 10*k` seconds for a 429); the result is
determined by the outcome of the stopping attempt; any other non-200 status
on the first attempt raises immediately after a single attempt; and when
every attempt up to `n` is retryable the call stops after exactly `n + 1`
attempts with an exception. -/
theorem ask_claude_spec (oracle : Nat → HttpOutcome) (n : Nat) :
    (ask_claude oracle n).attempts = stopIndex oracle n + 1
    ∧ (ask_claude oracle n).attempts ≤ n + 1
    ∧ (ask_claude oracle n).waits
        = (List.range (stopIndex oracle n)).map (fun k => waitFor (oracle k) k)
    ∧ (ask_claude oracle n).result = resultFor (oracle (stopIndex oracle n)) n
    ∧ (∀ c body, oracle 0 = HttpOutcome.response c body → c ≠ 200 → c ≠ 529 → c ≠ 429 →
        (ask_claude oracle n).attempts = 1
        ∧ (ask_claude oracle n).result
            = Except.error ("Claude API error: " ++ toString c ++ " - " ++ body))
    ∧ ((∀ k, k ≤ n → retryable (oracle k) = true) →
        (ask_claude oracle n).attempts = n + 1
        ∧ ∃ msg, (ask_claude oracle n).result = Except.error msg) := by
  have hmain := ask_loop_spec oracle n n 0 (by omega)
  have heq : ask_claude oracle n = ask_claude_loop oracle n 0 (n + 1) := rfl
  have hS : stopAux oracle n (n + 1) 0 = stopIndex oracle n := rfl
  rw [heq, hmain, hS]
  have hSle : stopIndex oracle n ≤ n := by
    rw [← hS]
    exact stopAux_le oracle n (n + 1) 0 (Nat.zero_le n)
  refine ⟨by simp, by simp; omega, ?_, by simp, ?_, ?_⟩
  · simp [List.range_eq_range']
  · intro c body h0 h200 h529 h429
    have hS0 : stopIndex oracle n = 0 := by
      rw [← hS]
      cases n with
      | zero => rfl
      | succ m =>
        simp only [stopAux]
        rw [if_neg]
        simp only [Bool.and_eq_true, decide_eq_true_eq, not_and]
        intro _
        simp [retryable, h0, h200, h529, h429]
    rw [hS0]
    simp [resultFor, h0, h200, h529, h429]
  · intro hall
    have hSn : stopIndex oracle n = n := by
      rw [← hS]
      exact stopAux_all_retryable oracle n (n + 1) 0 (Nat.zero_le n) (by omega)
        fun k _ hk2 => hall k hk2
    rw [hSn]
    refine ⟨by simp, resultFor_error_of_retryable _ n (hall n (Nat.le_refl n))⟩

/-- Witness oracle for C4: the server answers HTTP 400 on every attempt. -/
def wOracle400 : Nat → HttpOutcome := fun _ => HttpOutcome.response 400 "Bad Request"

/-- Witness for C4: a server that always answers HTTP 400 causes exactly
one attempt and an immediate `Claude API error` exception. -/
theorem ask_claude_spec_witness :
    wOracle400 0 = HttpOutcome.response 400 "Bad Request"
    ∧ (ask_claude wOracle400 3).attempts = 1
    ∧ (ask_claude wOracle400 3).result
        = Except.error ("Claude API error: " ++ toString 400 ++ " - " ++ "Bad Request") := by
  have h := (ask_claude_spec wOracle400 3).2.2.2.2.1
    400 "Bad Request" rfl (by decide) (by decide) (by decide)
  exact ⟨rfl, h.1, h.2⟩




/-! ## `SimplifiedContractAnalyzer._parse_response`

The parser walks the response line by line and fills a result dict whose
defaults are `None` for the nine extracted fields, `"claude-3-sonnet"` for
`ai_provider` and `Decimal("0.80")` for `confidence_score`.  `Decimal`
values are modelled by the literal they were constructed from, and
`datetime` values by a calendar date. -/

/-- A `decimal.Decimal`, by its construction literal. -/
structure PyDecimal where
  lit : String
deriving Repr, DecidableEq

/-- A `datetime.datetime` produced by `strptime` with a date-only format. -/
structure PyDate where
  year : Nat
  month : Nat
  day : Nat
deriving Repr, DecidableEq

/-- Split a character list at every occurrence of `sep` (Python
`str.split(sep)` keeps empty pieces). -/
def splitOnChar (sep : Char) : List Char → List (List Char)
  | [] => [[]]
  | x :: xs =>
    let r := splitOnChar sep xs
    if x == sep then [] :: r
    else
      match r with
      | h :: t => (x :: h) :: t
      | [] => [[x]]

/-- `response.split("\n")`. -/
def pyLines (s : String) : List String :=
  (splitOnChar '\n' s.data).map String.mk

/-- Python `str.replace(pat, rep)` (all non-overlapping occurrences, left to
right); the skip counter consumes the matched pattern so the recursion stays
structural. -/
def replaceGo (pat rep : List Char) : Nat → List Char → List Char
  | _, [] => []
  | skip + 1, _ :: cs => replaceGo pat rep skip cs
  | 0, c :: cs =>
    if chPre pat (c :: cs) && !pat.isEmpty then
      rep ++ replaceGo pat rep (pat.length - 1) cs
    else c :: replaceGo pat rep 0 cs

/-- Python `s.replace(pat, rep)`. -/
def pyReplace (s pat rep : String) : String :=
  ⟨replaceGo pat.data rep.data 0 s.data⟩

/-- `re.sub(r"^[#\s]+", "", s)`: drop the leading run of `#` and whitespace
characters. -/
def dropHashWs (s : String) : String :=
  ⟨s.data.dropWhile fun c => c == '#' || pyWs c⟩

/-- `SimplifiedContractAnalyzer._clean_text`. -/
def clean_text (value : String) (max_length : Nat) : Option String :=
  if value = "" || value = "NOT_FOUND" then none
  else
    let clean := pyReplace (pyReplace value "CTDOT #" "") "CTDOT" ""
    let clean := pyStrip clean
    let clean := dropHashWs clean
    if clean = "" then none else some (pyTake clean max_length)

/-- `re.sub(r"[,$]", "", s)`. -/
def removeCommaDollar (s : String) : String :=
  ⟨s.data.filter fun c => !(c == ',' || c == '$')⟩

/-- The first match of `re.findall(r"\d+\.?\d*", ...)`: a maximal digit run,
an optional dot, then a digit run. -/
def firstNumber : List Char → Option (List Char)
  | [] => none
  | c :: cs =>
    if c.isDigit then
      let intPart := List.takeWhile Char.isDigit (c :: cs)
      let rest := List.dropWhile Char.isDigit (c :: cs)
      match rest with
      | '.' :: rest2 => some (intPart ++ '.' :: List.takeWhile Char.isDigit rest2)
      | _ => some intPart
    else firstNumber cs

/-- `SimplifiedContractAnalyzer._extract_decimal`. -/
def extract_decimal (value : String) : Option PyDecimal :=
  match firstNumber (removeCommaDollar value).data with
  | some ds => some ⟨String.mk ds⟩
  | none => none

/-- Gregorian leap year, as `datetime` validates days. -/
def isLeapYear (y : Nat) : Bool :=
  y % 4 == 0 && (y % 100 != 0 || y % 400 == 0)

/-- Days of a month, as `datetime` validates them. -/
def daysInMonth (y m : Nat) : Nat :=
  if m = 2 then (if isLeapYear y then 29 else 28)
  else if m = 4 || m = 6 || m = 9 || m = 11 then 30
  else 31

/-- The `datetime(year, month, day)` constructor: `None` when the triple is
not a valid calendar date (in Python an exception, which every caller of
`_parse_date` turns into `None`/the next format). -/
def mkValidDate (y m d : Nat) : Option PyDate :=
  if 1 ≤ y ∧ y ≤ 9999 ∧ 1 ≤ m ∧ m ≤ 12 ∧ 1 ≤ d ∧ d ≤ daysInMonth y m then
    some ⟨y, m, d⟩
  else none

/-- Numeric value of a digit run. -/
def digitsVal (l : List Char) : Nat :=
  l.foldl (fun acc c => acc * 10 + (c.toNat - '0'.toNat)) 0

/-- The regex `^\d{4}-\d{2}-\d{2}$` guarding the ISO branch of
`_parse_date`. -/
def isoShape : List Char → Bool
  | [y1, y2, y3, y4, s1, m1, m2, s2, d1, d2] =>
    y1.isDigit && y2.isDigit && y3.isDigit && y4.isDigit && s1 == '-'
      && m1.isDigit && m2.isDigit && s2 == '-' && d1.isDigit && d2.isDigit
  | _ => false

/-- `strptime`'s `%d`/`%m` directive matches one or two digits, greedily,
with backtracking: candidate readings in the order the regex tries them. -/
def numCandidates : List Char → List (Nat × List Char)
  | [] => []
  | [d1] => if d1.isDigit then [(digitsVal [d1], [])] else []
  | d1 :: d2 :: rest =>
    if d1.isDigit && d2.isDigit then
      [(digitsVal [d1, d2], rest), (digitsVal [d1], d2 :: rest)]
    else if d1.isDigit then [(digitsVal [d1], d2 :: rest)]
    else []

/-- Match one literal character. -/
def expectChar (c : Char) : List Char → Option (List Char)
  | x :: xs => if x == c then some xs else none
  | [] => none

/-- Match the `\s+` that `strptime` substitutes for a space in the format. -/
def dropWs1 : List Char → Option (List Char)
  | c :: cs => if pyWs c then some (cs.dropWhile pyWs) else none
  | [] => none

/-- `%Y`: exactly four digits, which must end the input. -/
def parseYearEnd : List Char → Option Nat
  | [a, b, c, d] =>
    if a.isDigit && b.isDigit && c.isDigit && d.isDigit then
      some (digitsVal [a, b, c, d])
    else none
  | _ => none

/-- The month names matched (case-insensitively) by `%B`. -/
def monthNames : List (String × Nat) :=
  [("january", 1), ("february", 2), ("march", 3), ("april", 4), ("may", 5),
   ("june", 6), ("july", 7), ("august", 8), ("september", 9), ("october", 10),
   ("november", 11), ("december", 12)]

/-- Match a full month name at the head of the input. -/
def matchMonth (l : List Char) : Option (Nat × List Char) :=
  monthNames.findSome? fun nm =>
    if chPre nm.1.data (l.map Char.toLower) then some (nm.2, l.drop nm.1.length)
    else none

/-- `datetime.strptime(value, "%B %d, %Y")`. -/
def parseFormatB (l : List Char) : Option PyDate :=
  (matchMonth l).bind fun mo =>
    (dropWs1 mo.2).bind fun r2 =>
      (numCandidates r2).findSome? fun dr =>
        (expectChar ',' dr.2).bind fun r4 =>
          (dropWs1 r4).bind fun r5 =>
            (parseYearEnd r5).bind fun y => mkValidDate y mo.1 dr.1

/-- `datetime.strptime(value, "%m<sep>%d<sep>%Y")` for `/` and `-`. -/
def parseMDY (sep : Char) (l : List Char) : Option PyDate :=
  (numCandidates l).findSome? fun mr =>
    (expectChar sep mr.2).bind fun r2 =>
      (numCandidates r2).findSome? fun dr =>
        (expectChar sep dr.2).bind fun r4 =>
          (parseYearEnd r4).bind fun y => mkValidDate y mr.1 dr.1

/-- `SimplifiedContractAnalyzer._parse_date`: the ISO shape is tried first
(an invalid calendar date there propagates to the outer `except` and yields
`None` without trying other formats); otherwise the three fallback formats
are tried in order. -/
def parse_date (value : String) : Option PyDate :=
  if isoShape value.data then
    match value.data with
    | [y1, y2, y3, y4, _, m1, m2, _, d1, d2] =>
      mkValidDate (digitsVal [y1, y2, y3, y4]) (digitsVal [m1, m2]) (digitsVal [d1, d2])
    | _ => none
  else
    match parseFormatB value.data with
    | some dt => some dt
    | none =>
      match parseMDY '/' value.data with
      | some dt => some dt
      | none => parseMDY '-' value.data



/-- The result dict of `_parse_response` with its defaults. -/
structure ParsedData where
  contract_number : Option String := none
  contract_name : Option String := none
  contract_value : Option PyDecimal := none
  contractor_name : Option String := none
  owner_name : Option String := none
  project_location : Option String := none
  project_type : Option String := none
  agreement_date : Option PyDate := none
  work_description : Option String := none
  ai_provider : String := "claude-3-sonnet"
  confidence_score : PyDecimal := ⟨"0.80"⟩
deriving Repr, DecidableEq

/-- `line.split(":", 1)` with key stripped and uppercased and value
stripped; `none` when the line has no colon. -/
def lineKV (line : String) : Option (String × String) :=
  if strIn ":" line then
    match splitOnChar ':' line.data with
    | k :: rest =>
      some (pyUpper (pyStrip ⟨k⟩), pyStrip ⟨List.intercalate [':'] rest⟩)
    | [] => none
  else none

/-- The body of the per-line loop of `_parse_response`. -/
def parse_response_step (data : ParsedData) (line : String) : ParsedData :=
  match lineKV line with
  | none => data
  | some kv =>
    let key := kv.1
    let value := kv.2
    if value = "NOT_FOUND" || value = "" then data
    else if strIn "CONTRACT_NUMBER" key then
      { data with contract_number := clean_text value 50 }
    else if strIn "CONTRACT_NAME" key then
      { data with contract_name := clean_text value 255 }
    else if strIn "CONTRACT_VALUE" key then
      { data with contract_value := extract_decimal value }
    else if strIn "CONTRACTOR_NAME" key then
      { data with contractor_name := clean_text value 255 }
    else if strIn "OWNER_NAME" key then
      { data with owner_name := clean_text value 255 }
    else if strIn "PROJECT_LOCATION" key then
      { data with project_location := clean_text value 255 }
    else if strIn "PROJECT_TYPE" key then
      { data with project_type := clean_text value 100 }
    else if strIn "AGREEMENT_DATE" key then
      { data with agreement_date := parse_date value }
    else if strIn "WORK_DESCRIPTION" key then
      { data with work_description := clean_text value 500 }
    else data

/-- `SimplifiedContractAnalyzer._parse_response`. -/
def parse_response (response : String) : ParsedData :=
  (pyLines response).foldl parse_response_step {}

/-! Spec-side notions for claim C9: which output field a key selects, and
the last line that sets a given field. -/

/-- The nine extracted output fields. -/
inductive AiField where
  | contract_number | contract_name | contract_value | contractor_name
  | owner_name | project_location | project_type | agreement_date
  | work_description
deriving Repr, DecidableEq

/-- The field a (stripped, uppercased) key is matched to, by substring
containment in the order of the code's chain. -/
def fieldOf (key : String) : Option AiField :=
  if strIn "CONTRACT_NUMBER" key then some .contract_number
  else if strIn "CONTRACT_NAME" key then some .contract_name
  else if strIn "CONTRACT_VALUE" key then some .contract_value
  else if strIn "CONTRACTOR_NAME" key then some .contractor_name
  else if strIn "OWNER_NAME" key then some .owner_name
  else if strIn "PROJECT_LOCATION" key then some .project_location
  else if strIn "PROJECT_TYPE" key then some .project_type
  else if strIn "AGREEMENT_DATE" key then some .agreement_date
  else if strIn "WORK_DESCRIPTION" key then some .work_description
  else none

/-- The stripped value a line contributes to field `f`: its value part if
the line has a colon, the value is neither empty nor `NOT_FOUND`, and the
key selects `f`. -/
def setterValue (f : AiField) (line : String) : Option String :=
  match lineKV line with
  | none => none
  | some kv =>
    if kv.2 = "NOT_FOUND" || kv.2 = "" then none
    else if fieldOf kv.1 = some f then some kv.2
    else none

/-- The value of the last line of the response that sets field `f`. -/
def lastSetter (f : AiField) (response : String) : Option String :=
  ((pyLines response).filterMap (setterValue f)).getLast?

theorem parse_response_step_eq (acc : ParsedData) (line : String) :
    parse_response_step acc line =
      { acc with
        contract_number :=
          match setterValue .contract_number line with
          | some v => clean_text v 50
          | none => acc.contract_number,
        contract_name :=
          match setterValue .contract_name line with
          | some v => clean_text v 255
          | none => acc.contract_name,
        contract_value :=
          match setterValue .contract_value line with
          | some v => extract_decimal v
          | none => acc.contract_value,
        contractor_name :=
          match setterValue .contractor_name line with
          | some v => clean_text v 255
          | none => acc.contractor_name,
        owner_name :=
          match setterValue .owner_name line with
          | some v => clean_text v 255
          | none => acc.owner_name,
        project_location :=
          match setterValue .project_location line with
          | some v => clean_text v 255
          | none => acc.project_location,
        project_type :=
          match setterValue .project_type line with
          | some v => clean_text v 100
          | none => acc.project_type,
        agreement_date :=
          match setterValue .agreement_date line with
          | some v => parse_date v
          | none => acc.agreement_date,
        work_description :=
          match setterValue .work_description line with
          | some v => clean_text v 500
          | none => acc.work_description } := by
  cases hkv : lineKV line with
  | none =>
    have hs : ∀ f, setterValue f line = none := by
      intro f
      simp [setterValue, hkv]
    simp only [parse_response_step, hkv, hs]
  | some kv =>
    obtain ⟨key, value⟩ := kv
    by_cases hnv : (value = "NOT_FOUND" || value = "") = true
    · have hs : ∀ f, setterValue f line = none := by
        intro f
        simp only [setterValue, hkv]
        rw [if_pos hnv]
      simp only [parse_response_step, hkv, hs]
      rw [if_pos hnv]
    · have hsv : ∀ f, setterValue f line
          = if fieldOf key = some f then some value else none := by
        intro f
        simp only [setterValue, hkv]
        rw [if_neg hnv]
      simp only [parse_response_step, hkv, hsv]
      rw [if_neg hnv]
      by_cases h1 : strIn "CONTRACT_NUMBER" key = true
      · rw [if_pos h1]
        have hf : fieldOf key = some AiField.contract_number := by
          unfold fieldOf
          rw [if_pos h1]
        simp [hf]
      · rw [if_neg h1]
        by_cases h2 : strIn "CONTRACT_NAME" key = true
        · rw [if_pos h2]
          have hf : fieldOf key = some AiField.contract_name := by
            unfold fieldOf
            rw [if_neg h1, if_pos h2]
          simp [hf]
        · rw [if_neg h2]
          by_cases h3 : strIn "CONTRACT_VALUE" key = true
          · rw [if_pos h3]
            have hf : fieldOf key = some AiField.contract_value := by
              unfold fieldOf
              rw [if_neg h1, if_neg h2, if_pos h3]
            simp [hf]
          · rw [if_neg h3]
            by_cases h4 : strIn "CONTRACTOR_NAME" key = true
            · rw [if_pos h4]
              have hf : fieldOf key = some AiField.contractor_name := by
                unfold fieldOf
                rw [if_neg h1, if_neg h2, if_neg h3, if_pos h4]
              simp [hf]
            · rw [if_neg h4]
              by_cases h5 : strIn "OWNER_NAME" key = true
              · rw [if_pos h5]
                have hf : fieldOf key = some AiField.owner_name := by
                  unfold fieldOf
                  rw [if_neg h1, if_neg h2, if_neg h3, if_neg h4, if_pos h5]
                simp [hf]
              · rw [if_neg h5]
                by_cases h6 : strIn "PROJECT_LOCATION" key = true
                · rw [if_pos h6]
                  have hf : fieldOf key = some AiField.project_location := by
                    unfold fieldOf
                    rw [if_neg h1, if_neg h2, if_neg h3, if_neg h4, if_neg h5, if_pos h6]
                  simp [hf]
                · rw [if_neg h6]
                  by_cases h7 : strIn "PROJECT_TYPE" key = true
                  · rw [if_pos h7]
                    have hf : fieldOf key = some AiField.project_type := by
                      unfold fieldOf
                      rw [if_neg h1, if_neg h2, if_neg h3, if_neg h4, if_neg h5, if_neg h6, if_pos h7]
                    simp [hf]
                  · rw [if_neg h7]
                    by_cases h8 : strIn "AGREEMENT_DATE" key = true
                    · rw [if_pos h8]
                      have hf : fieldOf key = some AiField.agreement_date := by
                        unfold fieldOf
                        rw [if_neg h1, if_neg h2, if_neg h3, if_neg h4, if_neg h5, if_neg h6, if_neg h7, if_pos h8]
                      simp [hf]
                    · rw [if_neg h8]
                      by_cases h9 : strIn "WORK_DESCRIPTION" key = true
                      · rw [if_pos h9]
                        have hf : fieldOf key = some AiField.work_description := by
                          unfold fieldOf
                          rw [if_neg h1, if_neg h2, if_neg h3, if_neg h4, if_neg h5, if_neg h6, if_neg h7, if_neg h8, if_pos h9]
                        simp [hf]
                      · rw [if_neg h9]
                        have hf : fieldOf key = none := by
                          unfold fieldOf
                          rw [if_neg h1, if_neg h2, if_neg h3, if_neg h4, if_neg h5, if_neg h6, if_neg h7, if_neg h8, if_neg h9]
                        simp [hf]



theorem getLast?_cons_or {α : Type} (a : α) (l : List α) :
    (a :: l).getLast?
      = match l.getLast? with
        | some w => some w
        | none => some a := by
  cases l with
  | nil => rfl
  | cons b bs =>
    rw [List.getLast?_cons_cons]
    cases h : (b :: bs).getLast? with
    | some w => rfl
    | none =>
      exfalso
      rw [List.getLast?_eq_none_iff] at h
      exact List.cons_ne_nil b bs h

theorem foldl_field {β : Type} (proj : ParsedData → β) (cleanF : String → β)
    (f : AiField)
    (hstep : ∀ acc line, proj (parse_response_step acc line)
      = match setterValue f line with
        | some v => cleanF v
        | none => proj acc) :
    ∀ (lines : List String) (acc : ParsedData),
      proj (lines.foldl parse_response_step acc)
        = match (lines.filterMap (setterValue f)).getLast? with
          | some v => cleanF v
          | none => proj acc := by
  intro lines
  induction lines with
  | nil =>
    intro acc
    rfl
  | cons line ls ih =>
    intro acc
    rw [List.foldl_cons, ih]
    cases hset : setterValue f line with
    | none =>
      rw [List.filterMap_cons_none hset, hstep acc line, hset]
    | some v =>
      rw [List.filterMap_cons_some hset, getLast?_cons_or]
      cases hlast : (ls.filterMap (setterValue f)).getLast? with
      | some w => rfl
      | none =>
        simp only [hstep acc line, hset]

theorem foldl_keeps_provider :
    ∀ (lines : List String) (acc : ParsedData),
      (lines.foldl parse_response_step acc).ai_provider = acc.ai_provider
      ∧ (lines.foldl parse_response_step acc).confidence_score = acc.confidence_score := by
  intro lines
  induction lines with
  | nil =>
    intro acc
    exact ⟨rfl, rfl⟩
  | cons line ls ih =>
    intro acc
    rw [List.foldl_cons]
    constructor
    · rw [(ih _).1, parse_response_step_eq]
    · rw [(ih _).2, parse_response_step_eq]



/-- **C9.** `_parse_response` parses its response as key:value lines:
lines without a colon are ignored; other lines are split at the first
colon, the key stripped and uppercased and matched to an output field by
substring containment; a `NOT_FOUND` or empty value leaves the field
untouched; among the lines that set a field the last occurrence wins
(each field equals the cleaned value of the last line that sets it); and
every field no line sets keeps its default — `None` for the nine extracted
fields, `"claude-3-sonnet"` for `ai_provider`, `Decimal("0.80")` for
`confidence_score`. -/
theorem parse_response_spec (response : String) :
    ((parse_response response).contract_number
        = match lastSetter AiField.contract_number response with
          | some v => (fun v => clean_text v 50) v
          | none => none)
    ∧ ((parse_response response).contract_name
        = match lastSetter AiField.contract_name response with
          | some v => (fun v => clean_text v 255) v
          | none => none)
    ∧ ((parse_response response).contract_value
        = match lastSetter AiField.contract_value response with
          | some v => (fun v => extract_decimal v) v
          | none => none)
    ∧ ((parse_response response).contractor_name
        = match lastSetter AiField.contractor_name response with
          | some v => (fun v => clean_text v 255) v
          | none => none)
    ∧ ((parse_response response).owner_name
        = match lastSetter AiField.owner_name response with
          | some v => (fun v => clean_text v 255) v
          | none => none)
    ∧ ((parse_response response).project_location
        = match lastSetter AiField.project_location response with
          | some v => (fun v => clean_text v 255) v
          | none => none)
    ∧ ((parse_response response).project_type
        = match lastSetter AiField.project_type response with
          | some v => (fun v => clean_text v 100) v
          | none => none)
    ∧ ((parse_response response).agreement_date
        = match lastSetter AiField.agreement_date response with
          | some v => (fun v => parse_date v) v
          | none => none)
    ∧ ((parse_response response).work_description
        = match lastSetter AiField.work_description response with
          | some v => (fun v => clean_text v 500) v
          | none => none)
    ∧ ((parse_response response).ai_provider = "claude-3-sonnet")
    ∧ ((parse_response response).confidence_score = PyDecimal.mk "0.80") := by
  refine ⟨?_, ?_, ?_, ?_, ?_, ?_, ?_, ?_, ?_, ?_, ?_⟩
  · have h := foldl_field (fun d => d.contract_number) (fun v => clean_text v 50)
        AiField.contract_number (fun acc line => by rw [parse_response_step_eq])
        (pyLines response) {}
    simp only [parse_response, lastSetter]
    rw [h]
  · have h := foldl_field (fun d => d.contract_name) (fun v => clean_text v 255)
        AiField.contract_name (fun acc line => by rw [parse_response_step_eq])
        (pyLines response) {}
    simp only [parse_response, lastSetter]
    rw [h]
  · have h := foldl_field (fun d => d.contract_value) (fun v => extract_decimal v)
        AiField.contract_value (fun acc line => by rw [parse_response_step_eq])
        (pyLines response) {}
    simp only [parse_response, lastSetter]
    rw [h]
  · have h := foldl_field (fun d => d.contractor_name) (fun v => clean_text v 255)
        AiField.contractor_name (fun acc line => by rw [parse_response_step_eq])
        (pyLines response) {}
    simp only [parse_response, lastSetter]
    rw [h]
  · have h := foldl_field (fun d => d.owner_name) (fun v => clean_text v 255)
        AiField.owner_name (fun acc line => by rw [parse_response_step_eq])
        (pyLines response) {}
    simp only [parse_response, lastSetter]
    rw [h]
  · have h := foldl_field (fun d => d.project_location) (fun v => clean_text v 255)
        AiField.project_location (fun acc line => by rw [parse_response_step_eq])
        (pyLines response) {}
    simp only [parse_response, lastSetter]
    rw [h]
  · have h := foldl_field (fun d => d.project_type) (fun v => clean_text v 100)
        AiField.project_type (fun acc line => by rw [parse_response_step_eq])
        (pyLines response) {}
    simp only [parse_response, lastSetter]
    rw [h]
  · have h := foldl_field (fun d => d.agreement_date) (fun v => parse_date v)
        AiField.agreement_date (fun acc line => by rw [parse_response_step_eq])
        (pyLines response) {}
    simp only [parse_response, lastSetter]
    rw [h]
  · have h := foldl_field (fun d => d.work_description) (fun v => clean_text v 500)
        AiField.work_description (fun acc line => by rw [parse_response_step_eq])
        (pyLines response) {}
    simp only [parse_response, lastSetter]
    rw [h]
  · exact (foldl_keeps_provider (pyLines response) {}).1
  · exact (foldl_keeps_provider (pyLines response) {}).2




/-! ## Relational schema and database state

The claims about the REST endpoints concern the three tables `contracts`,
`contract_analysis` and `wip_entries` (plus the separate `wip` table of
`app/models/wip.py`).  A database is the lists of their rows, in insertion
order, together with the autoincrement counters; `query(...).first()` is
`List.find?` over insertion order.  Encryption is transparent to every
caller (the hybrid properties encrypt on write and decrypt on read), so
encrypted columns are modelled by their decrypted values. -/

/-- The declaration of a table column, as written in the SQLAlchemy model
(`nullable` defaults to `True` when not given). -/
structure ColumnSpec where
  sqlType : String
  foreignKey : Option String
  unique : Bool
  nullable : Bool
deriving Repr, DecidableEq

/-- `wip_entries.contract_id = Column(Integer, ForeignKey("contracts.id"),
unique=True)` — nullable by default. -/
def wip_entries_contract_id : ColumnSpec :=
  { sqlType := "Integer", foreignKey := some "contracts.id",
    unique := true, nullable := true }

/-- `contract_analysis.contract_id = Column(Integer,
ForeignKey("contracts.id"), nullable=False)` — no unique constraint. -/
def contract_analysis_contract_id : ColumnSpec :=
  { sqlType := "Integer", foreignKey := some "contracts.id",
    unique := false, nullable := false }

/-- A row of `contracts` (`raw_text` is the decrypted view of
`raw_text_encrypted`). -/
structure ContractRow where
  id : Nat
  filename : String
  raw_text : Option String
  is_processed : Bool
deriving Repr, DecidableEq

/-- A row of `contract_analysis`, with the AI-extracted payload. -/
structure AnalysisRow where
  id : Nat
  contract_id : Nat
  data : ParsedData
deriving Repr, DecidableEq

/-- A row of `wip_entries`. -/
structure WipEntryRow where
  id : Nat
  contract_id : Nat
  job_number : String
  job_name : String
  contract_amount : PyDecimal
deriving Repr, DecidableEq

/-- A row of the `wip` table of `app/models/wip.py`. -/
structure WipRow where
  id : Nat
  job_number : String
  project_name : String
deriving Repr, DecidableEq

/-- The database state. -/
structure DB where
  contracts : List ContractRow := []
  analyses : List AnalysisRow := []
  wip_entries : List WipEntryRow := []
  wip_items : List WipRow := []
  next_contract_id : Nat := 1
  next_analysis_id : Nat := 1
  next_wip_entry_id : Nat := 1
  next_wip_id : Nat := 1
deriving Repr, DecidableEq

/-- An HTTPException: status code and detail string. -/
structure ApiError where
  status : Nat
  detail : String
deriving Repr, DecidableEq

/-- Python `x or fallback` for an optional string column value. -/
def orFalsyStr (o : Option String) (fallback : String) : String :=
  match o with
  | some s => if s = "" then fallback else s
  | none => fallback

/-- Truthiness of a `Decimal` (false exactly for zero). -/
def pyDecimalTruthy (d : PyDecimal) : Bool :=
  d.lit.data.any fun c => c.isDigit && c != '0'

/-- Python `x or fallback` for an optional `Decimal` column value. -/
def orFalsyDec (o : Option PyDecimal) (fallback : PyDecimal) : PyDecimal :=
  match o with
  | some d => if pyDecimalTruthy d then d else fallback
  | none => fallback

/-! ### `POST /contracts/extract-text` (`app/api/contracts.py`) -/

/-- `POST /contracts/extract-text`.  `pdfText` is the outcome of
`extract_text_from_uploaded_file`: an exception message, or the returned
optional text (`None`/empty is falsy). -/
def extract_contract_text (db : DB) (filename : String)
    (pdfText : Except String (Option String)) : Except ApiError Nat × DB :=
  if !(pyEndsWith (pyLower filename) ".pdf") then
    (.error ⟨400, "Only PDF files are allowed"⟩, db)
  else
    match pdfText with
    | .error e => (.error ⟨500, "Text extraction failed: " ++ e⟩, db)
    | .ok raw =>
      if raw = none || raw = some "" then
        (.error ⟨422, "Failed to extract text from PDF."⟩, db)
      else
        let contract : ContractRow :=
          { id := db.next_contract_id, filename := filename,
            raw_text := raw, is_processed := true }
        (.ok contract.id,
         { db with contracts := db.contracts ++ [contract],
                   next_contract_id := db.next_contract_id + 1 })

/-! ### `POST /contracts/analyze/{contract_id}` -/

/-- Outcome of `SimplifiedContractAnalyzer().analyze_contract(raw_text)`:
extracted data, or the exception class the endpoint sniffs out of the
message (overloaded/529 → 503, rate limited/429 → 429, anything else →
500). -/
inductive AiOutcome where
  | ok (data : ParsedData)
  | overloaded
  | rateLimited
  | failed (msg : String)
deriving Repr, DecidableEq

/-- `POST /contracts/analyze/{contract_id}`.  Returns the analysis id and
whether it was newly created. -/
def analyze_contract (db : DB) (contract_id : Nat) (key_ok : Bool)
    (ai : AiOutcome) : Except ApiError (Nat × Bool) × DB :=
  match db.contracts.find? fun c => c.id == contract_id with
  | none => (.error ⟨404, "Contract not found"⟩, db)
  | some contract =>
    match db.analyses.find? fun a => a.contract_id == contract_id with
    | some existing => (.ok (existing.id, false), db)
    | none =>
      match contract.raw_text with
      | none => (.error ⟨422, "No text found - extract text first"⟩, db)
      | some raw_text =>
        if raw_text = "" then
          (.error ⟨422, "No text found - extract text first"⟩, db)
        else if (pyStrip raw_text).length < 100 then
          (.error ⟨422, "Contract text too short for analysis"⟩, db)
        else if !key_ok then
          (.error ⟨500, "Anthropic API key not configured"⟩, db)
        else
          match ai with
          | .ok data =>
            let analysis : AnalysisRow :=
              { id := db.next_analysis_id, contract_id := contract_id,
                data := data }
            (.ok (analysis.id, true),
             { db with analyses := db.analyses ++ [analysis],
                       next_analysis_id := db.next_analysis_id + 1 })
          | .overloaded =>
            (.error ⟨503, "Claude AI service is temporarily overloaded. Please try again in a few minutes."⟩, db)
          | .rateLimited =>
            (.error ⟨429, "Rate limit exceeded. Please wait a moment before trying again."⟩, db)
          | .failed msg =>
            (.error ⟨500, "Contract analysis failed: " ++ msg⟩, db)

/-! ### `POST /wip/wip-entry` (`app/api/wip_entry.py`) -/

/-- `POST /wip/wip-entry` with body `{filename, job_number}`. -/
def create_wip_entry (db : DB) (filename job_number : String) :
    Except ApiError Nat × DB :=
  match db.contracts.find? fun c => c.filename == filename with
  | none =>
    (.error ⟨404, "Contract with filename '" ++ filename ++ "' not found"⟩, db)
  | some contract =>
    match db.wip_entries.find? fun w => w.contract_id == contract.id with
    | some _ =>
      (.error ⟨400, "WIP entry already exists for '" ++ filename ++ "'"⟩, db)
    | none =>
      match db.analyses.find? fun a => a.contract_id == contract.id with
      | none =>
        (.error ⟨400, "Contract '" ++ filename ++ "' must be analyzed first"⟩, db)
      | some analysis =>
        let job_name := orFalsyStr analysis.data.contract_name
          (pyReplace filename ".pdf" "")
        let contract_amount := orFalsyDec analysis.data.contract_value ⟨"0.00"⟩
        let entry : WipEntryRow :=
          { id := db.next_wip_entry_id, contract_id := contract.id,
            job_number := job_number, job_name := job_name,
            contract_amount := contract_amount }
        (.ok entry.id,
         { db with wip_entries := db.wip_entries ++ [entry],
                   next_wip_entry_id := db.next_wip_entry_id + 1 })

/-- `PUT /wip/wip-entry/{wip_id}`: mutate the first row returned by the id
query, leaving `contract_id` untouched. -/
def updateFirstWip (l : List WipEntryRow) (wip_id : Nat)
    (jn jname : Option String) (amount : Option PyDecimal) : List WipEntryRow :=
  match l with
  | [] => []
  | w :: ws =>
    if w.id = wip_id then
      { w with job_number := jn.getD w.job_number,
               job_name := jname.getD w.job_name,
               contract_amount := amount.getD w.contract_amount } :: ws
    else w :: updateFirstWip ws wip_id jn jname amount

/-- `PUT /wip/wip-entry/{wip_id}`. -/
def update_wip_entry (db : DB) (wip_id : Nat) (jn jname : Option String)
    (amount : Option PyDecimal) : Except ApiError Nat × DB :=
  match db.wip_entries.find? fun w => w.id == wip_id with
  | none => (.error ⟨404, "WIP entry not found"⟩, db)
  | some _ =>
    (.ok wip_id,
     { db with wip_entries := updateFirstWip db.wip_entries wip_id jn jname amount })



/-! ### `POST /wip/upload-csv` (`app/api/wip.py`) -/

/-- The headers `upload_wip_csv` requires (`expected_headers`). -/
def required_headers : List String := ["job_number", "project_name"]

/-- The required headers missing from the actual header set
(`expected_headers - actual_headers`). -/
def missingHeaders (actual : List String) : List String :=
  required_headers.filter fun h => !actual.contains h

/-- The row-processing loop of `upload_wip_csv`: skip rows with a blank
`job_number`/`project_name` or a duplicate `job_number`, insert the rest.
Returns (created count, error count, updated wip rows, next id). -/
def processCsvRows (rows : List (List (String × String)))
    (wip_items : List WipRow) (next_id : Nat) : Nat × Nat × List WipRow × Nat :=
  match rows with
  | [] => (0, 0, wip_items, next_id)
  | row :: rest =>
    let job_number := pyStrip ((row.lookup "job_number").getD "")
    let project_name := pyStrip ((row.lookup "project_name").getD "")
    if job_number = "" || project_name = "" then
      let r := processCsvRows rest wip_items next_id
      (r.1, r.2.1 + 1, r.2.2)
    else if (wip_items.find? fun i => i.job_number == job_number).isSome then
      let r := processCsvRows rest wip_items next_id
      (r.1, r.2.1 + 1, r.2.2)
    else
      let item : WipRow :=
        { id := next_id, job_number := job_number, project_name := project_name }
      let r := processCsvRows rest (wip_items ++ [item]) (next_id + 1)
      (r.1 + 1, r.2)

/-- `POST /wip/upload-csv`.  `headers` is `csv.DictReader(...).fieldnames`
(`none` for an empty file); `rows` are the parsed data rows. -/
def upload_wip_csv (db : DB) (filename : String)
    (headers : Option (List String)) (rows : List (List (String × String))) :
    Except ApiError Nat × DB :=
  if !(pyEndsWith filename ".csv") then
    (.error ⟨400, "File must be a CSV file"⟩, db)
  else
    let actual := headers.getD []
    let missing := missingHeaders actual
    if missing ≠ [] then
      (.error ⟨400, "CSV missing required headers: "
          ++ String.intercalate ", " missing
          ++ ". Found headers: "
          ++ (if actual ≠ [] then String.intercalate ", " actual else "None")⟩,
       db)
    else
      let r := processCsvRows rows db.wip_items db.next_wip_id
      (.ok r.1, { db with wip_items := r.2.2.1, next_wip_id := r.2.2.2 })

/-- `DELETE /wip/clear-all`. -/
def clear_all_wip_items (db : DB) : Except ApiError Nat × DB :=
  (.ok db.wip_items.length, { db with wip_items := [] })

/-- `POST /wip/` (`app/api/routes.py`): insert one wip row. -/
def create_wip_row (db : DB) (job_number project_name : String) :
    Except ApiError Nat × DB :=
  let item : WipRow :=
    { id := db.next_wip_id, job_number := job_number,
      project_name := project_name }
  (.ok db.next_wip_id,
   { db with wip_items := db.wip_items ++ [item],
             next_wip_id := db.next_wip_id + 1 })

/-- `DELETE /wip/{wip_id}` (`app/api/routes.py`). -/
def delete_wip_row (db : DB) (wip_id : Nat) : Except ApiError Nat × DB :=
  match db.wip_items.find? fun i => i.id == wip_id with
  | none => (.error ⟨404, "WIP item not found"⟩, db)
  | some _ =>
    (.ok wip_id,
     { db with wip_items := db.wip_items.filter fun i => !(i.id == wip_id) })

/-- `PUT /wip/{wip_id}` (`app/api/routes.py`): update job fields of the
first matching row. -/
def update_wip_row (db : DB) (wip_id : Nat) (jn pn : Option String) :
    Except ApiError Nat × DB :=
  match db.wip_items.find? fun i => i.id == wip_id with
  | none => (.error ⟨404, "WIP item not found"⟩, db)
  | some _ =>
    (.ok wip_id,
     { db with wip_items := db.wip_items.map fun i =>
         if i.id = wip_id then
           { i with job_number := jn.getD i.job_number,
                    project_name := pn.getD i.project_name }
         else i })

/-! ### Reachable database states

One step per endpoint that writes to the database (contracts, analyses and
WIP rows are written nowhere else in the repository; no endpoint deletes a
contract or changes a filename). -/

/-- One database-mutating API call. -/
inductive Step : DB → DB → Prop where
  | extractText (db : DB) (filename : String) (pdfText : Except String (Option String)) :
      Step db (extract_contract_text db filename pdfText).2
  | analyze (db : DB) (cid : Nat) (key_ok : Bool) (ai : AiOutcome) :
      Step db (analyze_contract db cid key_ok ai).2
  | createWipEntry (db : DB) (filename job_number : String) :
      Step db (create_wip_entry db filename job_number).2
  | updateWipEntry (db : DB) (wip_id : Nat) (jn jname : Option String)
      (amount : Option PyDecimal) :
      Step db (update_wip_entry db wip_id jn jname amount).2
  | uploadCsv (db : DB) (filename : String) (headers : Option (List String))
      (rows : List (List (String × String))) :
      Step db (upload_wip_csv db filename headers rows).2
  | clearAll (db : DB) : Step db (clear_all_wip_items db).2
  | createWipRow (db : DB) (jn pn : String) : Step db (create_wip_row db jn pn).2
  | deleteWipRow (db : DB) (wip_id : Nat) : Step db (delete_wip_row db wip_id).2
  | updateWipRow (db : DB) (wip_id : Nat) (jn pn : Option String) :
      Step db (update_wip_row db wip_id jn pn).2

/-- Database states reachable from the empty database through the API. -/
inductive Reachable : DB → Prop where
  | init : Reachable {}
  | step {db db' : DB} : Reachable db → Step db db' → Reachable db'

/-- The inductive invariant: contracts carry fresh, distinct ids; at most
one analysis and one WIP entry per contract; and each WIP entry belongs to
the first contract carrying its filename (contracts are never deleted and
filenames never change, so the filename lookup keeps finding it). -/
def Inv (db : DB) : Prop :=
  (db.contracts.Pairwise fun a b => a.id ≠ b.id)
  ∧ (∀ c ∈ db.contracts, c.id < db.next_contract_id)
  ∧ (db.analyses.Pairwise fun a b => a.contract_id ≠ b.contract_id)
  ∧ (db.wip_entries.Pairwise fun a b => a.contract_id ≠ b.contract_id)
  ∧ (∀ w ∈ db.wip_entries, ∃ c ∈ db.contracts,
      db.contracts.find? (fun x => x.filename == c.filename) = some c
        ∧ w.contract_id = c.id)



theorem find?_append_some {α : Type} {p : α → Bool} {l₁ : List α} {a : α}
    (h : l₁.find? p = some a) (l₂ : List α) : (l₁ ++ l₂).find? p = some a := by
  induction l₁ with
  | nil => simp [List.find?] at h
  | cons x xs ih =>
    rw [List.cons_append]
    cases hx : p x with
    | true =>
      rw [List.find?_cons_of_pos _ hx] at h ⊢
      exact h
    | false =>
      rw [List.find?_cons_of_neg _ (by simp [hx])] at h ⊢
      exact ih h

theorem eq_of_mem_pairwise_ne {α β : Type} (f : α → β) {l : List α}
    (hp : l.Pairwise fun a b => f a ≠ f b) {x y : α}
    (hx : x ∈ l) (hy : y ∈ l) (hf : f x = f y) : x = y := by
  induction l with
  | nil => simp at hx
  | cons a as ih =>
    rcases List.pairwise_cons.mp hp with ⟨ha, has⟩
    rcases List.mem_cons.mp hx with rfl | hx'
    · rcases List.mem_cons.mp hy with rfl | hy'
      · rfl
      · exact absurd hf (ha y hy')
    · rcases List.mem_cons.mp hy with rfl | hy'
      · exact absurd hf.symm (ha x hx')
      · exact ih has hx' hy'



theorem updateFirstWip_map_cid (l : List WipEntryRow) (wid : Nat)
    (jn jname : Option String) (am : Option PyDecimal) :
    (updateFirstWip l wid jn jname am).map WipEntryRow.contract_id
      = l.map WipEntryRow.contract_id := by
  induction l with
  | nil => rfl
  | cons w ws ih =>
    simp only [updateFirstWip]
    split
    · rfl
    · simp [ih]

theorem updateFirstWip_mem (l : List WipEntryRow) (wid : Nat)
    (jn jname : Option String) (am : Option PyDecimal) :
    ∀ w' ∈ updateFirstWip l wid jn jname am,
      ∃ w ∈ l, w'.contract_id = w.contract_id := by
  induction l with
  | nil =>
    intro w' h
    simp [updateFirstWip] at h
  | cons w ws ih =>
    intro w' h
    simp only [updateFirstWip] at h
    split at h
    · rcases List.mem_cons.mp h with rfl | h'
      · exact ⟨w, List.mem_cons_self _ _, rfl⟩
      · exact ⟨w', List.mem_cons_of_mem _ h', rfl⟩
    · rcases List.mem_cons.mp h with rfl | h'
      · exact ⟨w', List.mem_cons_self _ _, rfl⟩
      · obtain ⟨w0, hw0, he⟩ := ih w' h'
        exact ⟨w0, List.mem_cons_of_mem _ hw0, he⟩

theorem inv_extract (db : DB) (filename : String)
    (pdfText : Except String (Option String)) (h : Inv db) :
    Inv (extract_contract_text db filename pdfText).2 := by
  obtain ⟨h1, h2, h3, h4, h5⟩ := h
  simp only [extract_contract_text]
  split
  · exact ⟨h1, h2, h3, h4, h5⟩
  · split
    · exact ⟨h1, h2, h3, h4, h5⟩
    · split
      · exact ⟨h1, h2, h3, h4, h5⟩
      · refine ⟨?_, ?_, h3, h4, ?_⟩
        · rw [List.pairwise_append]
          refine ⟨h1, by simp, ?_⟩
          intro a ha b hb
          have := h2 a ha
          simp only [List.mem_singleton] at hb
          subst hb
          simp only []
          omega
        · intro c hc
          rcases List.mem_append.mp hc with hc' | hc'
          · have := h2 c hc'
            simp only []
            omega
          · simp only [List.mem_singleton] at hc'
            subst hc'
            simp only []
            omega
        · intro w hw
          obtain ⟨c, hc, hfind, hcid⟩ := h5 w hw
          exact ⟨c, List.mem_append_left _ hc, find?_append_some hfind _, hcid⟩



theorem inv_analyze (db : DB) (cid : Nat) (key_ok : Bool) (ai : AiOutcome)
    (h : Inv db) : Inv (analyze_contract db cid key_ok ai).2 := by
  obtain ⟨h1, h2, h3, h4, h5⟩ := h
  simp only [analyze_contract]
  split
  · exact ⟨h1, h2, h3, h4, h5⟩
  · rename_i contract hcontract
    split
    · exact ⟨h1, h2, h3, h4, h5⟩
    · rename_i hnone
      split
      · exact ⟨h1, h2, h3, h4, h5⟩
      · rename_i raw_text hraw
        split
        · exact ⟨h1, h2, h3, h4, h5⟩
        · split
          · exact ⟨h1, h2, h3, h4, h5⟩
          · split
            · exact ⟨h1, h2, h3, h4, h5⟩
            · split
              · refine ⟨h1, h2, ?_, h4, h5⟩
                rw [List.pairwise_append]
                refine ⟨h3, by simp, ?_⟩
                intro a ha b hb
                simp only [List.mem_singleton] at hb
                subst hb
                simp only []
                have := List.find?_eq_none.mp hnone a ha
                simpa using this
              · exact ⟨h1, h2, h3, h4, h5⟩
              · exact ⟨h1, h2, h3, h4, h5⟩
              · exact ⟨h1, h2, h3, h4, h5⟩

theorem inv_create_wip (db : DB) (filename job_number : String) (h : Inv db) :
    Inv (create_wip_entry db filename job_number).2 := by
  obtain ⟨h1, h2, h3, h4, h5⟩ := h
  simp only [create_wip_entry]
  split
  · exact ⟨h1, h2, h3, h4, h5⟩
  · rename_i contract hcontract
    split
    · exact ⟨h1, h2, h3, h4, h5⟩
    · rename_i hnowip
      split
      · exact ⟨h1, h2, h3, h4, h5⟩
      · rename_i analysis hanalysis
        have hcf : contract.filename = filename := by
          have := List.find?_some hcontract
          simpa using this
        have hcmem : contract ∈ db.contracts := List.mem_of_find?_eq_some hcontract
        refine ⟨h1, h2, h3, ?_, ?_⟩
        · rw [List.pairwise_append]
          refine ⟨h4, by simp, ?_⟩
          intro a ha b hb
          simp only [List.mem_singleton] at hb
          subst hb
          simp only []
          have := List.find?_eq_none.mp hnowip a ha
          simpa using this
        · intro w hw
          rcases List.mem_append.mp hw with hw' | hw'
          · exact h5 w hw'
          · simp only [List.mem_singleton] at hw'
            subst hw'
            refine ⟨contract, hcmem, ?_, rfl⟩
            rw [hcf]
            exact hcontract

theorem inv_update_wip (db : DB) (wip_id : Nat) (jn jname : Option String)
    (amount : Option PyDecimal) (h : Inv db) :
    Inv (update_wip_entry db wip_id jn jname amount).2 := by
  obtain ⟨h1, h2, h3, h4, h5⟩ := h
  simp only [update_wip_entry]
  split
  · exact ⟨h1, h2, h3, h4, h5⟩
  · refine ⟨h1, h2, h3, ?_, ?_⟩
    · have hmap := updateFirstWip_map_cid db.wip_entries wip_id jn jname amount
      have h4' : (db.wip_entries.map WipEntryRow.contract_id).Pairwise (· ≠ ·) :=
        (List.pairwise_map).mpr h4
      rw [← hmap] at h4'
      exact (List.pairwise_map).mp h4'
    · intro w' hw'
      obtain ⟨w, hw, he⟩ := updateFirstWip_mem db.wip_entries wip_id jn jname amount w' hw'
      obtain ⟨c, hc, hfind, hcid⟩ := h5 w hw
      exact ⟨c, hc, hfind, he.trans hcid⟩

theorem step_inv {db db' : DB} (s : Step db db') (h : Inv db) : Inv db' := by
  cases s with
  | extractText filename pdfText => exact inv_extract _ filename pdfText h
  | analyze cid key_ok ai => exact inv_analyze _ cid key_ok ai h
  | createWipEntry filename job_number => exact inv_create_wip _ filename job_number h
  | updateWipEntry wip_id jn jname amount => exact inv_update_wip _ wip_id jn jname amount h
  | uploadCsv filename headers rows =>
    obtain ⟨h1, h2, h3, h4, h5⟩ := h
    simp only [upload_wip_csv]
    split
    · exact ⟨h1, h2, h3, h4, h5⟩
    · split
      · exact ⟨h1, h2, h3, h4, h5⟩
      · exact ⟨h1, h2, h3, h4, h5⟩
  | clearAll =>
    obtain ⟨h1, h2, h3, h4, h5⟩ := h
    exact ⟨h1, h2, h3, h4, h5⟩
  | createWipRow jn pn =>
    obtain ⟨h1, h2, h3, h4, h5⟩ := h
    exact ⟨h1, h2, h3, h4, h5⟩
  | deleteWipRow wip_id =>
    obtain ⟨h1, h2, h3, h4, h5⟩ := h
    simp only [delete_wip_row]
    split
    · exact ⟨h1, h2, h3, h4, h5⟩
    · exact ⟨h1, h2, h3, h4, h5⟩
  | updateWipRow wip_id jn pn =>
    obtain ⟨h1, h2, h3, h4, h5⟩ := h
    simp only [update_wip_row]
    split
    · exact ⟨h1, h2, h3, h4, h5⟩
    · exact ⟨h1, h2, h3, h4, h5⟩

theorem reachable_inv {db : DB} (h : Reachable db) : Inv db := by
  induction h with
  | init =>
    refine ⟨by simp, by simp, by simp, by simp, by simp⟩
  | step _ s ih => exact step_inv s ih



/-- **C2 (counterexample).** The claim asserts both one-to-one invariants
are enforced by a unique, nullable foreign-key column `contract_id`; but
`contract_analysis.contract_id` is declared with neither `unique=True` nor
nullability (`nullable=False`), so the schema does not enforce uniqueness
there. -/
theorem contract_analysis_fk_cex :
    contract_analysis_contract_id.unique = false
    ∧ contract_analysis_contract_id.nullable = false := ⟨rfl, rfl⟩

/-- **C2 (amended).** In every reachable database state there is at most
one `ContractAnalysis` row and at most one `WIPEntry` row per contract;
the `WIPEntry` invariant is enforced by the unique nullable foreign key
`wip_entries.contract_id`, while the `ContractAnalysis` invariant is
maintained only by the analyze endpoint's pre-insert existence check —
its `contract_id` column is a non-unique, non-nullable foreign key. -/
theorem db_uniqueness_invariants (db : DB) (h : Reachable db) :
    (db.analyses.Pairwise fun a b => a.contract_id ≠ b.contract_id)
    ∧ (db.wip_entries.Pairwise fun a b => a.contract_id ≠ b.contract_id)
    ∧ wip_entries_contract_id.unique = true
    ∧ wip_entries_contract_id.nullable = true
    ∧ contract_analysis_contract_id.unique = false
    ∧ contract_analysis_contract_id.nullable = false := by
  obtain ⟨_, _, h3, h4, _⟩ := reachable_inv h
  exact ⟨h3, h4, rfl, rfl, rfl, rfl⟩

/-- A contract text of more than 100 characters for the witness states. -/
def wText : String :=
  String.mk (List.replicate 120 'x')

def wDb1 : DB := (extract_contract_text {} "bridge.pdf" (Except.ok (some wText))).2

def wDb2 : DB := (analyze_contract wDb1 1 true (AiOutcome.ok {})).2

def wDb3 : DB := (create_wip_entry wDb2 "bridge.pdf" "JOB-1").2

theorem wDb3_reachable : Reachable wDb3 :=
  Reachable.step
    (Reachable.step
      (Reachable.step Reachable.init
        (Step.extractText {} "bridge.pdf" (Except.ok (some wText))))
      (Step.analyze wDb1 1 true (AiOutcome.ok {})))
    (Step.createWipEntry wDb2 "bridge.pdf" "JOB-1")

set_option maxRecDepth 8000 in
/-- Witness for C2: a reachable three-step state holding one analysis and
one WIP entry, to which the theorem applies. -/
theorem db_uniqueness_invariants_witness :
    wDb3.analyses.map AnalysisRow.contract_id = [1]
    ∧ wDb3.wip_entries.map WipEntryRow.contract_id = [1]
    ∧ (wDb3.analyses.Pairwise fun a b => a.contract_id ≠ b.contract_id) := by
  refine ⟨by decide, by decide, (db_uniqueness_invariants wDb3 wDb3_reachable).1⟩

/-- **C5.** In every reachable database state, a `POST /wip/wip-entry`
request whose filename names a contract that already has a WIPEntry row
fails with HTTP 400 and leaves the database unchanged.  (The invariant
that a WIP entry always belongs to the first stored contract with its
filename makes the endpoint's first-match lookup find that contract.) -/
theorem create_wip_entry_duplicate (db : DB) (hreach : Reachable db)
    (filename job_number : String) (c : ContractRow) (hc : c ∈ db.contracts)
    (hcf : c.filename = filename) (w : WipEntryRow) (hw : w ∈ db.wip_entries)
    (hwc : w.contract_id = c.id) :
    (create_wip_entry db filename job_number).1
      = Except.error ⟨400, "WIP entry already exists for '" ++ filename ++ "'"⟩
    ∧ (create_wip_entry db filename job_number).2 = db := by
  obtain ⟨h1, h2, h3, h4, h5⟩ := reachable_inv hreach
  obtain ⟨c2, hc2, hfind, hwc2⟩ := h5 w hw
  have hcc : c = c2 := eq_of_mem_pairwise_ne ContractRow.id h1 hc hc2
    (by rw [← hwc, hwc2])
  rw [← hcc] at hfind
  rw [hcf] at hfind
  simp only [create_wip_entry, hfind]
  cases hfw : db.wip_entries.find? fun x => x.contract_id == c.id with
  | none =>
    exfalso
    have := List.find?_eq_none.mp hfw w hw
    simp [hwc] at this
  | some wx =>
    simp [hfw]

set_option maxRecDepth 8000 in
/-- Witness for C5: creating a second WIP entry for `bridge.pdf` in the
reachable state `wDb3` fails with 400 and changes nothing. -/
theorem create_wip_entry_duplicate_witness :
    (⟨1, "bridge.pdf", some wText, true⟩ : ContractRow) ∈ wDb3.contracts
    ∧ (⟨1, 1, "JOB-1", "bridge", ⟨"0.00"⟩⟩ : WipEntryRow) ∈ wDb3.wip_entries
    ∧ (create_wip_entry wDb3 "bridge.pdf" "JOB-2").1
        = Except.error ⟨400, "WIP entry already exists for 'bridge.pdf'"⟩
    ∧ (create_wip_entry wDb3 "bridge.pdf" "JOB-2").2 = wDb3 := by
  have h := create_wip_entry_duplicate wDb3 wDb3_reachable "bridge.pdf" "JOB-2"
    ⟨1, "bridge.pdf", some wText, true⟩ (by decide) rfl
    ⟨1, 1, "JOB-1", "bridge", ⟨"0.00"⟩⟩ (by decide) rfl
  exact ⟨by decide, by decide, h.1, h.2⟩

/-- **C6.** A CSV upload whose header row misses a required column fails
with HTTP 400; the detail string lists exactly the missing required
columns; and no WIP rows are inserted (the database is unchanged). -/
theorem upload_csv_missing_headers (db : DB) (filename : String)
    (headers : Option (List String)) (rows : List (List (String × String)))
    (hcsv : pyEndsWith filename ".csv" = true)
    (hmiss : missingHeaders (headers.getD []) ≠ []) :
    (upload_wip_csv db filename headers rows).1
      = Except.error ⟨400, "CSV missing required headers: "
          ++ String.intercalate ", " (missingHeaders (headers.getD []))
          ++ ". Found headers: "
          ++ (if (headers.getD []) ≠ [] then
                String.intercalate ", " (headers.getD []) else "None")⟩
    ∧ (upload_wip_csv db filename headers rows).2 = db
    ∧ (∀ col, col ∈ missingHeaders (headers.getD [])
        ↔ (col ∈ required_headers ∧ col ∉ headers.getD [])) := by
  refine ⟨?_, ?_, ?_⟩
  · simp only [upload_wip_csv, hcsv]
    rw [if_neg (by simp), if_pos hmiss]
  · simp only [upload_wip_csv, hcsv]
    rw [if_neg (by simp), if_pos hmiss]
  · intro col
    simp [missingHeaders, List.mem_filter]

/-- Witness for C6: uploading a CSV with only `job_number` reports
`project_name` as missing and inserts nothing. -/
theorem upload_csv_missing_headers_witness :
    pyEndsWith "wip.csv" ".csv" = true
    ∧ missingHeaders ["job_number"] = ["project_name"]
    ∧ (upload_wip_csv {} "wip.csv" (some ["job_number"]) []).1
        = Except.error ⟨400,
            "CSV missing required headers: project_name. Found headers: job_number"⟩
    ∧ (upload_wip_csv {} "wip.csv" (some ["job_number"]) []).2 = {} := by
  have h := upload_csv_missing_headers {} "wip.csv" (some ["job_number"]) []
    (by decide) (by decide)
  refine ⟨by decide, by decide, ?_, h.2.1⟩
  rw [h.1]
  rfl

/-- **C7.** An upload whose filename does not end in `.pdf`
(case-insensitively) fails with HTTP 400 `Only PDF files are allowed` and
creates no Contract row. -/
theorem extract_text_non_pdf (db : DB) (filename : String)
    (pdfText : Except String (Option String))
    (h : pyEndsWith (pyLower filename) ".pdf" = false) :
    (extract_contract_text db filename pdfText).1
      = Except.error ⟨400, "Only PDF files are allowed"⟩
    ∧ (extract_contract_text db filename pdfText).2 = db := by
  simp only [extract_contract_text, h]
  exact ⟨rfl, rfl⟩

/-- Witness for C7: uploading `Notes.TXT` is rejected with 400 on the
empty database. -/
theorem extract_text_non_pdf_witness :
    pyEndsWith (pyLower "Notes.TXT") ".pdf" = false
    ∧ (extract_contract_text {} "Notes.TXT" (Except.ok (some "text"))).1
        = Except.error ⟨400, "Only PDF files are allowed"⟩
    ∧ (extract_contract_text {} "Notes.TXT" (Except.ok (some "text"))).2 = {} := by
  have h := extract_text_non_pdf {} "Notes.TXT" (Except.ok (some "text")) (by decide)
  exact ⟨by decide, h.1, h.2⟩

/-- **C8.** For an existing contract with no prior analysis, when the
decrypted text is empty/`None` or its stripped length is below 100
characters, `POST /contracts/analyze/{id}` fails with HTTP 422 and no
`ContractAnalysis` row is created. -/
theorem analyze_contract_short_text (db : DB) (cid : Nat) (key_ok : Bool)
    (ai : AiOutcome) (c : ContractRow)
    (hfind : db.contracts.find? (fun x => x.id == cid) = some c)
    (hnoanal : db.analyses.find? (fun a => a.contract_id == cid) = none)
    (htext : c.raw_text = none
      ∨ ∃ t, c.raw_text = some t ∧ (pyStrip t).length < 100) :
    (∃ d, (analyze_contract db cid key_ok ai).1 = Except.error ⟨422, d⟩)
    ∧ (analyze_contract db cid key_ok ai).2 = db := by
  simp only [analyze_contract, hfind, hnoanal]
  rcases htext with hnone | ⟨t, ht, hlen⟩
  · simp only [hnone]
    exact ⟨⟨"No text found - extract text first", rfl⟩, trivial⟩
  · simp only [ht]
    by_cases hempty : t = ""
    · rw [if_pos hempty]
      exact ⟨⟨"No text found - extract text first", rfl⟩, rfl⟩
    · rw [if_neg hempty, if_pos hlen]
      exact ⟨⟨"Contract text too short for analysis", rfl⟩, rfl⟩

/-- Witness for C8: analysing a contract whose text is `"short"` yields
422 and leaves the database unchanged. -/
theorem analyze_contract_short_text_witness :
    ({ contracts := [⟨1, "a.pdf", some "short", true⟩] } : DB).contracts.find?
        (fun x => x.id == 1) = some ⟨1, "a.pdf", some "short", true⟩
    ∧ (∃ d, (analyze_contract { contracts := [⟨1, "a.pdf", some "short", true⟩] }
          1 true (AiOutcome.ok {})).1 = Except.error ⟨422, d⟩)
    ∧ (analyze_contract { contracts := [⟨1, "a.pdf", some "short", true⟩] }
          1 true (AiOutcome.ok {})).2
        = { contracts := [⟨1, "a.pdf", some "short", true⟩] } := by
  have h := analyze_contract_short_text
    { contracts := [⟨1, "a.pdf", some "short", true⟩] } 1 true (AiOutcome.ok {})
    ⟨1, "a.pdf", some "short", true⟩ (by decide) rfl
    (Or.inr ⟨"short", rfl, by decide⟩)
  exact ⟨by decide, h.1, h.2⟩


end WipBackend
